import Mathlib

/-!
# CloudCartOps order service: status transition table and lifecycle handlers

A shallow embedding of `services/order-service/main.go`, with the event
publisher of `kafka.go` and the latency buffer of `metrics.go`.  Pure functions
are Lean functions; the handlers are functions from the stored tables and the
outcomes of the external collaborators (database faults, remote product
service answers) to a response, the new stored tables and the trace of
effects the handler performed.
-/

namespace OrderService

/-! ## Status transition table (`isValidStatusTransition`, main.go 552-574) -/

/-- The literal `validTransitions` map of `isValidStatusTransition`, as an
association list in source order (the keys are pairwise distinct). -/
def validTransitions : List (String × List String) :=
  [ ("awaiting_payment", ["confirmed", "cancelled"]),
    ("confirmed", ["shipped", "cancelled"]),
    ("shipped", ["delivered", "returned"]),
    ("delivered", ["returned"]),
    ("cancelled", []),
    ("returned", []) ]

/-- The function `isValidStatusTransition`: look the current status up in the
map (absent key: `false`), then scan the allowed targets for the new status. -/
def isValidStatusTransition (currentStatus newStatus : String) : Bool :=
  match validTransitions.lookup currentStatus with
  | none => false
  | some validStatuses => validStatuses.any (fun status => status == newStatus)

/-- The seven edges of the transition graph, as pairs (current, requested). -/
def transitionEdges : List (String × String) :=
  [ ("awaiting_payment", "confirmed"), ("awaiting_payment", "cancelled"),
    ("confirmed", "shipped"), ("confirmed", "cancelled"),
    ("shipped", "delivered"), ("shipped", "returned"),
    ("delivered", "returned") ]

/-- The six known order statuses. -/
def knownStatuses : List String :=
  ["awaiting_payment", "confirmed", "shipped", "delivered", "cancelled", "returned"]

/-- Depth of a status in the transition graph (used to show acyclicity). -/
def statusRank (s : String) : Nat :=
  if s = "awaiting_payment" then 0
  else if s = "confirmed" then 1
  else if s = "shipped" then 2
  else if s = "delivered" then 3
  else 4

/-! ## The Go type `float64`

Values and arithmetic of IEEE 754 binary64 with rounding to nearest, ties to
even: 53 significant bits, exponents from -1022 (subnormal numbers included)
to 1023, results of magnitude 2^1024 or more become infinite. -/

/-- A value of the Go type `float64`: a finite value (a rational number on
the binary64 grid; the positive and the negative zero are not told apart), an
infinity with its sign, or NaN. -/
inductive F64 where
  | fin (q : ℚ)
  | inf (negative : Bool)
  | nan
deriving DecidableEq, Repr

/-- Number of halvings that bring `n` below 2, with `fuel` steps at most. -/
def log2Fuel : Nat → Nat → Nat
  | 0, _ => 0
  | fuel + 1, n => if n < 2 then 0 else log2Fuel fuel (n / 2) + 1

/-- Floor of the binary logarithm of a positive natural number. -/
def ilog2 (n : Nat) : Nat := log2Fuel n n

/-- Floor of the binary logarithm of the positive fraction `n / d`. -/
def floorLog2 (n d : Nat) : Int :=
  let a := ilog2 n
  let b := ilog2 d
  if b ≤ a then
    if 2 ^ (a - b) * d ≤ n then (a : Int) - b else (a : Int) - b - 1
  else
    if d ≤ 2 ^ (b - a) * n then (a : Int) - b else (a : Int) - b - 1

/-- The fraction `n / d` rounded to the nearest natural number, ties to the
even one. -/
def roundHalfEven (n d : Nat) : Nat :=
  let q := n / d
  let r := n % d
  if 2 * r < d then q
  else if d < 2 * r then q + 1
  else if q % 2 = 0 then q else q + 1

/-- The positive fraction `n / d` rounded to 53 significant bits (fewer in the
subnormal range): with `e` the binary exponent of the fraction, not below
-1022, the result is the multiple of `2 ^ (e - 52)` nearest to it, ties to the
even multiple. -/
def roundMagnitude (n d : Nat) : ℚ :=
  let e := max (floorLog2 n d) (-1022)
  let s := e - 52
  if 0 ≤ s then ((roundHalfEven n (d * 2 ^ s.toNat) * 2 ^ s.toNat : Nat) : ℚ)
  else ((roundHalfEven (n * 2 ^ (-s).toNat) d : Nat) : ℚ) / ((2 ^ (-s).toNat : Nat) : ℚ)

/-- The `float64` nearest to a rational number (the rounding of every
`float64` operation, of the conversion from `int` and of number parsing). -/
def toFloat64 (x : ℚ) : F64 :=
  if x = 0 then .fin 0
  else
    let m := roundMagnitude x.num.natAbs x.den
    if ((2 ^ 1024 : Nat) : ℚ) ≤ m then .inf (decide (x < 0))
    else .fin (if x < 0 then -m else m)

/-- Addition of `float64` values. -/
def F64.add : F64 → F64 → F64
  | .nan, _ => .nan
  | _, .nan => .nan
  | .inf a, .inf b => if a = b then .inf a else .nan
  | .inf a, .fin _ => .inf a
  | .fin _, .inf b => .inf b
  | .fin x, .fin y => toFloat64 (x + y)

/-- Multiplication of `float64` values. -/
def F64.mul : F64 → F64 → F64
  | .nan, _ => .nan
  | _, .nan => .nan
  | .inf a, .inf b => .inf (a != b)
  | .inf a, .fin y => if y = 0 then .nan else .inf (a != decide (y < 0))
  | .fin x, .inf b => if x = 0 then .nan else .inf (decide (x < 0) != b)
  | .fin x, .fin y => toFloat64 (x * y)

/-- Negation of a `float64` value. -/
def F64.neg : F64 → F64
  | .fin x => .fin (-x)
  | .inf a => .inf (!a)
  | .nan => .nan

/-- The conversion `float64(n)` of a Go `int`. -/
def F64.ofInt (n : Int) : F64 := toFloat64 (n : ℚ)

/-- The rational value of a finite `float64` (0 for an infinity and NaN). -/
def F64.toRat : F64 → ℚ
  | .fin x => x
  | _ => 0

instance : Add F64 := ⟨F64.add⟩

instance : Mul F64 := ⟨F64.mul⟩

instance : Neg F64 := ⟨F64.neg⟩

instance (n : Nat) : OfNat F64 n := ⟨toFloat64 (n : ℚ)⟩

/-- The conversion `int(f)` of a finite `float64`: the fraction is discarded
(truncation towards zero); for a value outside the range of `int` the Go
specification leaves the result to the implementation, and this is the value
the amd64 conversion instruction returns, -2^63. -/
def float64ToInt (f : ℚ) : Int :=
  let t := Int.tdiv f.num f.den
  if -2 ^ 63 ≤ t ∧ t < 2 ^ 63 then t else -2 ^ 63

/-! ## Data model (main.go 22-44)

`float64` amounts are values of `F64`, Go `int` values are integers, and
`time.Time` values are clock ticks. -/

/-- The struct `OrderItem`. -/
structure OrderItem where
  ID : Int
  OrderID : Int
  ProductID : Int
  Quantity : Int
  Price : F64
  CreatedAt : Nat
deriving DecidableEq, Repr

/-- The struct `Order`. -/
structure Order where
  ID : Int
  UserID : Int
  TotalAmount : F64
  Status : String
  CreatedAt : Nat
  UpdatedAt : Nat
  Items : List OrderItem
deriving DecidableEq, Repr

/-- The struct `CreateOrderRequest`. -/
structure CreateOrderRequest where
  UserID : Int
  Items : List OrderItem
deriving DecidableEq, Repr

/-- The anonymous request struct of `processPayment`. -/
structure PaymentRequest where
  PaymentMethod : String
deriving DecidableEq, Repr

/-- The anonymous request struct of `updateOrderStatus`. -/
structure StatusRequest where
  Status : String
deriving DecidableEq, Repr

/-! ## Persisted tables -/

/-- Modelled from the spec: a row of the table `orders(id, user_id,
total_amount, status, created_at, updated_at)` of §6; the schema file is not
among the sources, the columns are those named by the SQL text in main.go. -/
structure OrderRow where
  id : Int
  user_id : Int
  total_amount : F64
  status : String
  created_at : Nat
  updated_at : Nat
deriving DecidableEq, Repr

/-- Modelled from the spec: a row of the table `order_items(id, order_id,
product_id, quantity, price, created_at)` of §6; the schema file is not among
the sources, the columns are those named by the SQL text in main.go. -/
structure ItemRow where
  id : Int
  order_id : Int
  product_id : Int
  quantity : Int
  price : F64
  created_at : Nat
deriving DecidableEq, Repr

/-- The committed content of the database: both tables, rows in insertion
order. -/
structure Store where
  orders : List OrderRow
  order_items : List ItemRow
deriving DecidableEq, Repr

/-- An error returned by `database/sql`: the distinguished `sql.ErrNoRows`, or
any other error with its text. -/
inductive DbErr where
  | ErrNoRows
  | other (msg : String)
deriving DecidableEq, Repr

/-- The text `err.Error()`. -/
def DbErr.Error : DbErr → String
  | .ErrNoRows => "sql: no rows in result set"
  | .other msg => msg

/-- Faults the database may raise during one call of `getOrderByID`: on the
order query, on the item query (including a failing row scan), or while the
item rows are fetched: `itemsStop = some k` makes `rows.Next()` stop after `k`
rows, and as `rows.Err()` is never checked the rows read so far are returned
without an error. -/
structure ReadFault where
  orderQuery : Option String
  itemsQuery : Option String
  itemsStop : Option Nat := Option.none

/-- No fault during a read. -/
def ReadFault.none : ReadFault := ⟨Option.none, Option.none, Option.none⟩

/-- The item row as scanned into an `OrderItem` by `getOrderByID`. -/
def ItemRow.toItem (r : ItemRow) : OrderItem :=
  { ID := r.id, OrderID := r.order_id, ProductID := r.product_id,
    Quantity := r.quantity, Price := r.price, CreatedAt := r.created_at }

/-- The function `getOrderByID` (main.go 580-614): select the order row (no
row: `sql.ErrNoRows`), then select its item rows and append the ones that
`rows.Next()` delivers. -/
def getOrderByID (db : Store) (fault : ReadFault) (orderID : Int) : Except DbErr Order :=
  match fault.orderQuery with
  | some e => .error (.other e)
  | none =>
    match db.orders.find? (fun r => r.id == orderID) with
    | none => .error .ErrNoRows
    | some r =>
      match fault.itemsQuery with
      | some e => .error (.other e)
      | none =>
        let rows := db.order_items.filter (fun i => i.order_id == orderID)
        let fetched := match fault.itemsStop with
          | none => rows
          | some k => rows.take k
        .ok { ID := r.id, UserID := r.user_id, TotalAmount := r.total_amount,
              Status := r.status, CreatedAt := r.created_at, UpdatedAt := r.updated_at,
              Items := fetched.map ItemRow.toItem }

/-- The statement `UPDATE orders SET status = $1, updated_at = NOW() WHERE id = $2`
applied to the tables. -/
def Store.updateStatus (db : Store) (status : String) (orderID : Int) (now : Nat) : Store :=
  { db with orders := db.orders.map (fun r =>
      if r.id = orderID then { r with status := status, updated_at := now } else r) }

/-! ## Effects and outcomes -/

/-- A value of an event payload (`map[string]interface{}`). -/
inductive JVal where
  | int (n : Int)
  | num (x : F64)
  | str (s : String)
  | time (t : Nat)
deriving DecidableEq, Repr

/-- An effect a handler performs on a collaborator, in program order.  Reads
are not recorded and a statement that fails is not recorded (the log line or
the response shows it). -/
inductive Effect where
  /-- Effect of `db.Begin()` succeeding. -/
  | txBegin
  /-- Effect of `INSERT INTO orders` executed inside the open transaction. -/
  | txInsertOrder (row : OrderRow)
  /-- Effect of `INSERT INTO order_items` executed inside the open transaction. -/
  | txInsertItem (row : ItemRow)
  /-- Effect of `UPDATE orders SET status` executed inside the open transaction. -/
  | txUpdateStatus (orderID : Int) (status : String)
  /-- Effect of `tx.Commit()`; `ok` tells whether the commit succeeded. -/
  | txCommit (ok : Bool)
  /-- Effect of the deferred `tx.Rollback()` (a no-op after a successful commit). -/
  | txRollback
  /-- Effect of `UPDATE orders SET status` through `db.Exec` (committed at once). -/
  | dbUpdateStatus (orderID : Int) (status : String)
  /-- Effect of `GET /products/<id>` on the product service. -/
  | httpGetProduct (productID : Int)
  /-- Effect of `PATCH /products/<id>/stock` with the new stock value. -/
  | httpPatchStock (productID : Int) (stock : Int)
  /-- Effect of `POST /products/<id>/stock/restore` with the quantity. -/
  | httpPostRestore (productID : Int) (quantity : Int)
  /-- Effect of a call of `publishOrderEvent`. -/
  | publish (topic : String) (message : List (String × JVal))
  /-- Effect of a line written with `log.Println` or `log.Printf` by a handler. -/
  | log (line : String)
deriving DecidableEq, Repr

/-- What the handler leaves on the connection: `http.Error` with a status code
and text, an encoded order with a status code, or a panic out of the handler
(net/http recovers it and drops the connection). -/
inductive Response where
  | error (code : Nat) (message : String)
  | json (code : Nat) (order : Order)
  | panicked
deriving DecidableEq, Repr

/-- The result of one handler run: the response, the committed tables after
the run and the effects performed, in order. -/
structure Result where
  response : Response
  db : Store
  trace : List Effect
deriving DecidableEq, Repr

/-- What the product service answers to `GET /products/<id>`, as far as
`reduceProductStock` distinguishes it. -/
inductive GetOutcome where
  /-- The outcome `client.Get` returns an error. -/
  | connErr (msg : String)
  /-- The outcome of a body that does not decode into a JSON object. -/
  | undecodable (msg : String)
  /-- The outcome of a decoded object whose `stock` entry is absent or is not a
  number: the unchecked type assertion `product["stock"].(float64)` panics. -/
  | noNumericStock
  /-- The outcome of a decoded object whose `stock` entry is a JSON number; `n`
  is the number as the product service wrote it. -/
  | stock (n : ℚ)
deriving DecidableEq, Repr

/-- What the product service answers to the `PATCH` of the stock. -/
inductive PatchOutcome where
  | connErr (msg : String)
  | status (code : Nat)
deriving DecidableEq, Repr

/-- The answers of the product service during one `reduceProductStock`. -/
structure ReduceScript where
  get : GetOutcome
  patch : PatchOutcome
deriving DecidableEq, Repr

/-- How one call of `reduceProductStock` ends. -/
inductive ReduceResult where
  | ok
  | err (msg : String)
  | panic
deriving DecidableEq, Repr

/-- Everything outside the handler that one run depends on: the clock, the
identifiers the database assigns, the faults the database raises (`none`: the
call succeeds, `some e`: it fails with text `e`) and the answers of the product
service, per item position. -/
structure Env where
  now : Nat
  newOrderID : Int
  newItemID : Nat → Int
  beginErr : Option String
  insertOrderErr : Option String
  insertItemErr : Nat → Option String
  updateErr : Option String
  commitErr : Option String
  firstRead : ReadFault
  lastRead : ReadFault
  restoreErr : Nat → Option String
  reduce : Nat → ReduceScript

/-! ## Event publisher (kafka.go 29-53) -/

/-- The function `publishOrderEvent`: one send attempt; a nil writer, a
marshalling error and a delivery error are only logged, so the call is the
whole effect. -/
def publishOrderEvent (topic : String) (message : List (String × JVal)) : List Effect :=
  [Effect.publish topic message]

/-! ## Stock reduction (main.go 488-550) -/

/-- Arithmetic of the Go type `int` (64 bits, two's complement). -/
def wrapInt64 (x : Int) : Int := (x + 2 ^ 63) % 2 ^ 64 - 2 ^ 63

/-- The value `newStock` of `reduceProductStock` (main.go 511-515). -/
def newStockOf (currentStock quantity : Int) : Int :=
  let newStock := wrapInt64 (currentStock - quantity)
  if newStock < 0 then 0 else newStock

/-- The function `reduceProductStock`: read the product, compute the new
stock, write it back.  Returns how the call ends and the remote calls made.
The decoder stores the JSON number as the nearest `float64` and fails when
that is out of range; `currentStock` is `int` of that `float64`.  Building the
`PATCH` request (`http.NewRequest` with a fixed method) is taken to succeed. -/
def reduceProductStock (script : ReduceScript) (productID quantity : Int) :
    ReduceResult × List Effect :=
  match script.get with
  | .connErr e => (.err e, [.httpGetProduct productID])
  | .undecodable e => (.err e, [.httpGetProduct productID])
  | .noNumericStock => (.panic, [.httpGetProduct productID])
  | .stock n =>
    match toFloat64 n with
    | .fin f =>
      let currentStock := float64ToInt f
      let newStock := newStockOf currentStock quantity
      let calls := [Effect.httpGetProduct productID, Effect.httpPatchStock productID newStock]
      match script.patch with
      | .connErr e => (.err e, calls)
      | .status code =>
        if code ≠ 200 ∧ code ≠ 201 then
          (.err ("failed to update stock: status " ++ toString code), calls)
        else (.ok, calls)
    | _ =>
      (.err "json: cannot unmarshal number into Go value of type float64",
       [.httpGetProduct productID])

/-- The function `reduceProductStockTx`: ignores the transaction and calls
`reduceProductStock`. -/
def reduceProductStockTx (script : ReduceScript) (productID quantity : Int) :
    ReduceResult × List Effect :=
  reduceProductStock script productID quantity

/-- The loop of `processPayment` over `order.Items` (main.go 441-446), from
item position `i`: an error is logged and the loop goes on; a panic leaves the
loop and the handler.  Returns the remote calls made and whether it panicked. -/
def reduceLoop (env : Env) : Nat → List OrderItem → List Effect × Bool
  | _, [] => ([], false)
  | i, item :: rest =>
    match reduceProductStockTx (env.reduce i) item.ProductID item.Quantity with
    | (.panic, calls) => (calls, true)
    | (.err e, calls) =>
      let r := reduceLoop env (i + 1) rest
      (calls ++ [Effect.log ("Warning: Failed to reduce stock for product " ++
        toString item.ProductID ++ ": " ++ e)] ++ r.1, r.2)
    | (.ok, calls) =>
      let r := reduceLoop env (i + 1) rest
      (calls ++ r.1, r.2)

/-! ## Handlers -/

/-- The loop of `createOrder` that computes the total (main.go 121-124):
`totalAmount += item.Price * float64(item.Quantity)` from the zero value, in
`float64` arithmetic. -/
def totalAmountOf (items : List OrderItem) : F64 :=
  items.foldl (fun totalAmount item => totalAmount + item.Price * F64.ofInt item.Quantity)
    (F64.fin 0)

/-- The loop of `createOrder` that inserts the item rows (main.go 148-158),
from item position `i`: the rows inserted and the error that stopped the loop,
if any. -/
def insertItems (env : Env) (orderID : Int) : Nat → List OrderItem → List ItemRow × Option String
  | _, [] => ([], none)
  | i, item :: rest =>
    match env.insertItemErr i with
    | some e => ([], some e)
    | none =>
      let r := insertItems env orderID (i + 1) rest
      ({ id := env.newItemID i, order_id := orderID, product_id := item.ProductID,
         quantity := item.Quantity, price := item.Price, created_at := env.now } :: r.1, r.2)

/-- The order row inserted by `createOrder` (main.go 136-139). -/
def newOrderRow (env : Env) (req : CreateOrderRequest) : OrderRow :=
  { id := env.newOrderID, user_id := req.UserID, total_amount := totalAmountOf req.Items,
    status := "awaiting_payment", created_at := env.now, updated_at := env.now }

/-- The payload of the `order.created` event (main.go 167-174). -/
def orderCreatedMessage (env : Env) (req : CreateOrderRequest) : List (String × JVal) :=
  [ ("order_id", .int env.newOrderID), ("user_id", .int req.UserID),
    ("total_amount", .num (totalAmountOf req.Items)), ("status", .str "awaiting_payment"),
    ("items", .int req.Items.length), ("timestamp", .time env.now) ]

/-- The handler `createOrder` (main.go 108-186).  `body` is the result of
decoding the request body. -/
def createOrder (env : Env) (db : Store) (body : Except String CreateOrderRequest) : Result :=
  match body with
  | .error e => ⟨.error 400 e, db, []⟩
  | .ok req =>
    if req.Items.length = 0 then
      ⟨.error 400 "Order must contain at least one item", db, []⟩
    else
      match env.beginErr with
      | some e => ⟨.error 500 e, db, []⟩
      | none =>
        match env.insertOrderErr with
        | some e =>
          ⟨.error 500 e, db, [.txBegin, .log ("Failed to create order: " ++ e), .txRollback]⟩
        | none =>
          let orderID := env.newOrderID
          let orderRow := newOrderRow env req
          let ins := insertItems env orderID 0 req.Items
          let inTx := [Effect.txBegin, Effect.txInsertOrder orderRow] ++ ins.1.map Effect.txInsertItem
          match ins.2 with
          | some e =>
            ⟨.error 500 e, db, inTx ++ [.log ("Failed to create order item: " ++ e), .txRollback]⟩
          | none =>
            match env.commitErr with
            | some e => ⟨.error 500 e, db, inTx ++ [.txCommit false, .txRollback]⟩
            | none =>
              let db1 : Store :=
                { orders := db.orders ++ [orderRow], order_items := db.order_items ++ ins.1 }
              let trace := inTx ++ [.txCommit true] ++
                publishOrderEvent "order.created" (orderCreatedMessage env req) ++
                [.txRollback]
              match getOrderByID db1 env.lastRead orderID with
              | .error err => ⟨.error 500 err.Error, db1, trace⟩
              | .ok order => ⟨.json 201 order, db1, trace⟩

/-- The variables `restoreStockNeeded` and `restoreReason` of
`updateOrderStatus` (main.go 323-332). -/
def restoreDecision (oldStatus newStatus : String) : Bool × String :=
  if newStatus = "cancelled" ∧ oldStatus = "confirmed" then (true, "order cancellation")
  else if newStatus = "returned" ∧ oldStatus = "delivered" then (true, "order return")
  else (false, "")

/-- The stock restore loop of `updateOrderStatus` (main.go 335-344), from item
position `i`: one `http.Post` per item; an error is logged and the loop goes
on. -/
def restoreLoop (env : Env) (restoreReason : String) : Nat → List OrderItem → List Effect
  | _, [] => []
  | i, item :: rest =>
    match env.restoreErr i with
    | some e =>
      Effect.httpPostRestore item.ProductID item.Quantity ::
        Effect.log ("Warning: Failed to restore stock for product " ++
          toString item.ProductID ++ " (" ++ restoreReason ++ "): " ++ e) ::
        restoreLoop env restoreReason (i + 1) rest
    | none =>
      Effect.httpPostRestore item.ProductID item.Quantity ::
        restoreLoop env restoreReason (i + 1) rest

/-- The event text chosen by the `switch` of `updateOrderStatus`
(main.go 359-378). -/
def statusMessage (oldStatus newStatus : String) : String :=
  if newStatus = "shipped" then "Order has been shipped and is on its way"
  else if newStatus = "delivered" then "Order has been delivered to customer"
  else if newStatus = "cancelled" then
    if oldStatus = "confirmed" then "Order has been cancelled and stock has been restored"
    else "Order has been cancelled"
  else if newStatus = "returned" then
    if oldStatus = "delivered" then
      "Order has been returned by customer and stock has been restored"
    else "Order has been returned"
  else "Order status updated"

/-- The payload of the `order.status_changed` event of `updateOrderStatus`
(main.go 348-378). -/
def statusChangedMessage (env : Env) (orderID : Int) (order : Order) (newStatus : String) :
    List (String × JVal) :=
  [ ("order_id", .int orderID), ("user_id", .int order.UserID),
    ("old_status", .str order.Status), ("new_status", .str newStatus),
    ("total_amount", .num order.TotalAmount),
    ("item_count", .int order.Items.length), ("timestamp", .time env.now),
    ("message", .str (statusMessage order.Status newStatus)) ]

/-- The handler `updateOrderStatus` (main.go 282-391).  `idArg` is the result
of `strconv.Atoi` on the path variable, `body` the result of decoding the
request body. -/
def updateOrderStatus (env : Env) (db : Store) (idArg : Option Int)
    (body : Except String StatusRequest) : Result :=
  match idArg with
  | none => ⟨.error 400 "Invalid order ID", db, []⟩
  | some orderID =>
    match body with
    | .error e => ⟨.error 400 e, db, []⟩
    | .ok req =>
      match getOrderByID db env.firstRead orderID with
      | .error _ => ⟨.error 404 "Order not found", db, []⟩
      | .ok order =>
        if ¬ (isValidStatusTransition order.Status req.Status = true) then
          ⟨.error 400 ("Cannot transition from " ++ order.Status ++ " to " ++ req.Status), db, []⟩
        else
          match env.updateErr with
          | some e => ⟨.error 500 e, db, []⟩
          | none =>
            let db1 := db.updateStatus req.Status orderID env.now
            let decision := restoreDecision order.Status req.Status
            let restores := if decision.1 then restoreLoop env decision.2 0 order.Items else []
            let trace := [Effect.dbUpdateStatus orderID req.Status] ++ restores ++
              publishOrderEvent "order.status_changed"
                (statusChangedMessage env orderID order req.Status)
            match getOrderByID db1 env.lastRead orderID with
            | .error err => ⟨.error 500 err.Error, db1, trace⟩
            | .ok updatedOrder => ⟨.json 200 updatedOrder, db1, trace⟩

/-- The payload of the `order.payment_confirmed` event (main.go 455-463). -/
def paymentConfirmedMessage (env : Env) (orderID : Int) (order : Order) (req : PaymentRequest) :
    List (String × JVal) :=
  [ ("order_id", .int orderID), ("user_id", .int order.UserID),
    ("total_amount", .num order.TotalAmount),
    ("payment_method", .str req.PaymentMethod),
    ("item_count", .int order.Items.length),
    ("timestamp", .time env.now),
    ("message", .str "Payment successful - Order confirmed and ready for shipment") ]

/-- The payload of the `order.status_changed` event of `processPayment`
(main.go 466-475). -/
def paymentStatusChangedMessage (env : Env) (orderID : Int) (order : Order) :
    List (String × JVal) :=
  [ ("order_id", .int orderID), ("user_id", .int order.UserID),
    ("old_status", .str "awaiting_payment"), ("new_status", .str "confirmed"),
    ("total_amount", .num order.TotalAmount),
    ("item_count", .int order.Items.length),
    ("timestamp", .time env.now),
    ("message", .str "Order confirmed - Payment received, stock reduced") ]

/-- The handler `processPayment` (main.go 393-486).  `idArg` is the result of
`strconv.Atoi` on the path variable, `body` the result of decoding the request
body. -/
def processPayment (env : Env) (db : Store) (idArg : Option Int)
    (body : Except String PaymentRequest) : Result :=
  match idArg with
  | none => ⟨.error 400 "Invalid order ID", db, []⟩
  | some orderID =>
    match body with
    | .error e => ⟨.error 400 e, db, []⟩
    | .ok req =>
      match getOrderByID db env.firstRead orderID with
      | .error _ => ⟨.error 404 "Order not found", db, []⟩
      | .ok order =>
        if order.Status ≠ "awaiting_payment" then
          ⟨.error 400 "Order is not awaiting payment", db, []⟩
        else
          match env.beginErr with
          | some e => ⟨.error 500 e, db, []⟩
          | none =>
            match env.updateErr with
            | some e => ⟨.error 500 e, db, [.txBegin, .txRollback]⟩
            | none =>
              let loop := reduceLoop env 0 order.Items
              let inTx := [Effect.txBegin, Effect.txUpdateStatus orderID "confirmed"] ++ loop.1
              if loop.2 then ⟨.panicked, db, inTx ++ [.txRollback]⟩
              else
                match env.commitErr with
                | some e => ⟨.error 500 e, db, inTx ++ [.txCommit false, .txRollback]⟩
                | none =>
                  let db1 := db.updateStatus "confirmed" orderID env.now
                  let trace := inTx ++ [.txCommit true] ++
                    publishOrderEvent "order.payment_confirmed"
                      (paymentConfirmedMessage env orderID order req) ++
                    publishOrderEvent "order.status_changed"
                      (paymentStatusChangedMessage env orderID order) ++
                    [.txRollback]
                  match getOrderByID db1 env.lastRead orderID with
                  | .error err => ⟨.error 500 err.Error, db1, trace⟩
                  | .ok updatedOrder => ⟨.json 200 updatedOrder, db1, trace⟩

/-! ## Predicates on traces -/

/-- The effect is a durable state change becoming committed: a successful
`tx.Commit()`, or a status update through `db.Exec`. -/
def Effect.isCommit : Effect → Bool
  | .txCommit ok => ok
  | .dbUpdateStatus _ _ => true
  | _ => false

/-- The effect is a remote stock call (a call of the reduce path or of the
restore path). -/
def Effect.isStockCall : Effect → Bool
  | .httpGetProduct _ => true
  | .httpPatchStock _ _ => true
  | .httpPostRestore _ _ => true
  | _ => false

/-- The effect is a stock restore call. -/
def Effect.isRestore : Effect → Bool
  | .httpPostRestore _ _ => true
  | _ => false

/-- The effect is an event publication. -/
def Effect.isPublish : Effect → Bool
  | .publish _ _ => true
  | _ => false

/-- The effect is an external call: a remote stock call or an event
publication. -/
def Effect.isExternal (e : Effect) : Bool := e.isStockCall || e.isPublish

/-- The effect is a call of `tx.Commit()`, successful or not. -/
def Effect.isCommitAttempt : Effect → Bool
  | .txCommit _ => true
  | _ => false

/-- Commit-before-external ordering of a trace: scanning from the start, a
committed state change is met before any external call (so every external call
of the trace has a committed state change somewhere before it). -/
def commitFirst : List Effect → Bool
  | [] => true
  | e :: rest => e.isCommit || (!e.isExternal && commitFirst rest)

/-- Publication-after-commit ordering of a trace: scanning from the start, a
committed state change is met before any event publication. -/
def publishAfterCommit : List Effect → Bool
  | [] => true
  | e :: rest => e.isCommit || (!e.isPublish && publishAfterCommit rest)

/-- The total as the spec words it: the sum over the items of
`quantity * price`, as a rational number. -/
def specTotal (items : List OrderItem) : ℚ :=
  (items.map (fun item => (item.Quantity : ℚ) * item.Price.toRat)).sum

/-- The value stored under a key of an event payload. -/
def payloadGet (message : List (String × JVal)) (key : String) : Option JVal :=
  message.lookup key

/-! ## Concrete environments used to run the handlers -/

/-- An environment in which every database call succeeds and the product
service holds ten units of every product and accepts every write. -/
def calmEnv : Env :=
  { now := 100, newOrderID := 1, newItemID := fun i => (i : Int) + 1,
    beginErr := none, insertOrderErr := none, insertItemErr := fun _ => none,
    updateErr := none, commitErr := none,
    firstRead := ReadFault.none, lastRead := ReadFault.none,
    restoreErr := fun _ => none,
    reduce := fun _ => { get := .stock 10, patch := .status 200 } }

/-- The empty database. -/
def emptyStore : Store := { orders := [], order_items := [] }

/-- The request of the spec example: two units at 10.0 and one unit at 5.0. -/
def exampleRequest : CreateOrderRequest :=
  { UserID := 7,
    Items := [ { ID := 0, OrderID := 0, ProductID := 11, Quantity := 2, Price := 10, CreatedAt := 0 },
               { ID := 0, OrderID := 0, ProductID := 12, Quantity := 1, Price := 5, CreatedAt := 0 } ] }

/-- A request with a single item of quantity -3 at price 4. -/
def negativeRequest : CreateOrderRequest :=
  { UserID := 7,
    Items := [ { ID := 0, OrderID := 0, ProductID := 11, Quantity := -3, Price := 4, CreatedAt := 0 } ] }

/-- A database holding one delivered order with two items. -/
def deliveredStore : Store :=
  { orders := [ { id := 1, user_id := 7, total_amount := 25, status := "delivered",
                  created_at := 100, updated_at := 130 } ],
    order_items := [ { id := 1, order_id := 1, product_id := 11, quantity := 2, price := 10,
                       created_at := 100 },
                     { id := 2, order_id := 1, product_id := 12, quantity := 1, price := 5,
                       created_at := 100 } ] }

/-- A database holding one order awaiting payment, with two items. -/
def awaitingStore : Store :=
  { orders := [ { id := 1, user_id := 7, total_amount := 25, status := "awaiting_payment",
                  created_at := 100, updated_at := 100 } ],
    order_items := [ { id := 1, order_id := 1, product_id := 11, quantity := 2, price := 10,
                       created_at := 100 },
                     { id := 2, order_id := 1, product_id := 12, quantity := 1, price := 5,
                       created_at := 100 } ] }

/-- A database holding one confirmed order with two items. -/
def confirmedStore : Store :=
  { orders := [ { id := 1, user_id := 7, total_amount := 25, status := "confirmed",
                  created_at := 100, updated_at := 110 } ],
    order_items := [ { id := 1, order_id := 1, product_id := 11, quantity := 2, price := 10,
                       created_at := 100 },
                     { id := 2, order_id := 1, product_id := 12, quantity := 1, price := 5,
                       created_at := 100 } ] }

/-- The order read from `confirmedStore`. -/
def confirmedOrder : Order :=
  { ID := 1, UserID := 7, TotalAmount := 25, Status := "confirmed", CreatedAt := 100,
    UpdatedAt := 110,
    Items := [ { ID := 1, OrderID := 1, ProductID := 11, Quantity := 2, Price := 10,
                 CreatedAt := 100 },
               { ID := 2, OrderID := 1, ProductID := 12, Quantity := 1, Price := 5,
                 CreatedAt := 100 } ] }

/-- An environment in which the product service answers every product read
with a JSON object that has no numeric `stock` entry (for instance an error
object), everything else as in `calmEnv`. -/
def stocklessEnv : Env :=
  { calmEnv with reduce := fun _ => { get := .noNumericStock, patch := .status 200 } }

/-- An environment in which the product service answers the product read for
the second item with a JSON object that has no numeric `stock` entry,
everything else as in `calmEnv`. -/
def stocklessSecondEnv : Env :=
  { calmEnv with
    reduce := fun i =>
      if i = 1 then { get := .noNumericStock, patch := .status 200 }
      else { get := .stock 10, patch := .status 200 } }

/-- An environment in which `tx.Commit()` fails, everything else as in
`calmEnv`. -/
def commitFailEnv : Env := { calmEnv with commitErr := some "commit failed" }

/-- An environment in which the restore call for the first item fails with a
connection error, everything else as in `calmEnv`. -/
def restoreFailEnv : Env :=
  { calmEnv with restoreErr := fun i => if i = 0 then some "connection refused" else none }

/-- Scan of a trace from a call of `tx.Commit()` on: no remote stock call
follows it. -/
def noStockCallAfterCommit : List Effect → Bool
  | [] => true
  | e :: rest =>
    if e.isCommitAttempt then rest.all (fun x => !x.isStockCall)
    else noStockCallAfterCommit rest

/-- Placement of the remote stock calls inside the transaction: no stock call
occurs before the status `UPDATE` is executed in the open transaction, and no
stock call occurs after `tx.Commit()` is called. -/
def stockCallsInsideTx : List Effect → Bool
  | [] => true
  | .txUpdateStatus _ _ :: rest => noStockCallAfterCommit rest
  | e :: rest => !e.isStockCall && stockCallsInsideTx rest

/-- The effect is the product read that starts a reduce call. -/
def Effect.isProductRead : Effect → Bool
  | .httpGetProduct _ => true
  | _ => false

/-! ## Order lookup handler (main.go 188-208) -/

/-- The handler `getOrder`: `sql.ErrNoRows` is answered 404, any other error of
`getOrderByID` is answered 500 with its text. -/
def getOrder (env : Env) (db : Store) (idArg : Option Int) : Result :=
  match idArg with
  | none => ⟨.error 400 "Invalid order ID", db, []⟩
  | some orderID =>
    match getOrderByID db env.firstRead orderID with
    | .error err =>
      if err = DbErr.ErrNoRows then ⟨.error 404 "Order not found", db, []⟩
      else ⟨.error 500 err.Error, db, []⟩
    | .ok order => ⟨.json 200 order, db, []⟩

/-! ## Metrics aggregator (metrics.go 9-54 and 174-186) -/

/-- The struct `Metrics`, restricted to the fields that `RecordRequest` and
`GetP95Latency` read or write (`int64` counters as integers kept in range by
`wrapInt64`, the slice as a list in arrival order). -/
structure Metrics where
  TotalRequests : Int
  SuccessfulRequests : Int
  FailedRequests : Int
  TotalLatency : Int
  RequestLatencies : List Int
deriving DecidableEq, Repr

/-- The initial value `metricsInstance`: zero counters, empty slice. -/
def metricsInstance : Metrics :=
  { TotalRequests := 0, SuccessfulRequests := 0, FailedRequests := 0, TotalLatency := 0,
    RequestLatencies := [] }

/-- The method `RecordRequest` (metrics.go 36-54). -/
def Metrics.RecordRequest (m : Metrics) (statusCode : Int) (latencyMs : Int) : Metrics :=
  let m1 : Metrics :=
    { m with TotalRequests := wrapInt64 (m.TotalRequests + 1),
             TotalLatency := wrapInt64 (m.TotalLatency + latencyMs),
             RequestLatencies := m.RequestLatencies ++ [latencyMs] }
  let m2 : Metrics :=
    if statusCode ≥ 400 then { m1 with FailedRequests := wrapInt64 (m1.FailedRequests + 1) }
    else { m1 with SuccessfulRequests := wrapInt64 (m1.SuccessfulRequests + 1) }
  if m2.RequestLatencies.length > 1000 then
    { m2 with RequestLatencies := m2.RequestLatencies.drop 1 }
  else m2

/-- The method `GetP95Latency` (metrics.go 175-186); `none` stands for the
run-time panic of an index out of range. -/
def Metrics.GetP95Latency (m : Metrics) : Option Int :=
  if m.RequestLatencies.length < 20 then some 0
  else
    let index := (m.RequestLatencies.length * 95) / 100
    m.RequestLatencies[index]?

/-- The state reached from `metricsInstance` by a sequence of `RecordRequest`
calls, each given as (status code, latency). -/
def recordAll (calls : List (Int × Int)) : Metrics :=
  calls.foldl (fun m call => m.RecordRequest call.1 call.2) metricsInstance

/-! ## Sequences of operations on one order -/

/-- A state-changing operation on an existing order: a payment confirmation or
a status change request. -/
inductive Op where
  | pay (req : PaymentRequest)
  | setStatus (status : String)
deriving DecidableEq, Repr

/-- One operation run on the order `orderID`. -/
def runOp (env : Env) (db : Store) (orderID : Int) : Op → Result
  | .pay req => processPayment env db (some orderID) (.ok req)
  | .setStatus status => updateOrderStatus env db (some orderID) (.ok ⟨status⟩)

/-- Operations run one after the other on the order `orderID`, each in its own
environment and on the tables the previous one left; the results in order. -/
def runOps (orderID : Int) : Store → List (Env × Op) → List Result
  | _, [] => []
  | db, step :: rest =>
    (runOp step.1 db orderID step.2) ::
      runOps orderID (runOp step.1 db orderID step.2).db rest

/-- The persistence layer succeeds throughout a run: no database call fails. -/
def persistenceOk (env : Env) : Bool :=
  env.beginErr.isNone && env.updateErr.isNone && env.commitErr.isNone &&
    env.firstRead.orderQuery.isNone && env.firstRead.itemsQuery.isNone &&
    env.firstRead.itemsStop.isNone &&
    env.lastRead.orderQuery.isNone && env.lastRead.itemsQuery.isNone &&
    env.lastRead.itemsStop.isNone

/-- Number of runs in which a reduce call was made. -/
def reduceRounds (results : List Result) : Nat :=
  (results.filter (fun r => r.trace.any Effect.isProductRead)).length

/-- Number of runs in which a restore call was made. -/
def restoreRounds (results : List Result) : Nat :=
  (results.filter (fun r => r.trace.any Effect.isRestore)).length

/-- The status stored for the order `orderID`, if the order exists. -/
def storedStatus (db : Store) (orderID : Int) : Option String :=
  (db.orders.find? (fun r => r.id == orderID)).map (fun r => r.status)

/-- An environment in which the order query of the first read fails with a
connection error, everything else as in `calmEnv`. -/
def readFailEnv : Env :=
  { calmEnv with firstRead := { orderQuery := some "connection refused", itemsQuery := none } }

/-- Twenty-five recorded requests with latencies 1 to 25, all answered 200. -/
def sampleCalls : List (Int × Int) :=
  (List.range 25).map (fun i => (200, (i : Int) + 1))

/-- An environment for a second payment attempt: the product service now holds
eight units of the first product (two were taken by the first attempt) and ten
of every other, everything else as in `calmEnv`. -/
def retryEnv : Env :=
  { calmEnv with
    reduce := fun i =>
      if i = 0 then { get := .stock 8, patch := .status 200 }
      else { get := .stock 10, patch := .status 200 } }

/-- The database right after the example request was created in the empty
database: one fresh order, number 1, with two items. -/
def freshStore : Store := (createOrder calmEnv emptyStore (.ok exampleRequest)).db

/-- Exactness of the total of `createOrder` from the running sum `acc` on:
every price is finite, and every converted quantity, every product and every
partial sum is a `float64` value, so that no step rounds. -/
def exactTotal (acc : ℚ) : List OrderItem → Bool
  | [] => true
  | item :: rest =>
    match item.Price with
    | .fin p =>
      decide (toFloat64 (item.Quantity : ℚ) = F64.fin (item.Quantity : ℚ)) &&
      decide (toFloat64 (p * (item.Quantity : ℚ)) = F64.fin (p * (item.Quantity : ℚ))) &&
      decide (toFloat64 (acc + p * (item.Quantity : ℚ)) =
        F64.fin (acc + p * (item.Quantity : ℚ))) &&
      exactTotal (acc + p * (item.Quantity : ℚ)) rest
    | _ => false

/-- A request with three units at the price 0.1, that is at the `float64`
nearest to 0.1, which is 3602879701896397 / 2^55. -/
def tenthsRequest : CreateOrderRequest :=
  { UserID := 7,
    Items := [ { ID := 0, OrderID := 0, ProductID := 11, Quantity := 3,
                 Price := F64.fin (3602879701896397 / 36028797018963968), CreatedAt := 0 } ] }

/-- A request with 2^53 + 1 units at the price 1. -/
def bigQuantityRequest : CreateOrderRequest :=
  { UserID := 7,
    Items := [ { ID := 0, OrderID := 0, ProductID := 11, Quantity := 9007199254740993,
                 Price := 1, CreatedAt := 0 } ] }

/-! ## Theorems: the status transition table -/

theorem lookup_validTransitions (c : String) :
    validTransitions.lookup c =
      if c = "awaiting_payment" then some ["confirmed", "cancelled"]
      else if c = "confirmed" then some ["shipped", "cancelled"]
      else if c = "shipped" then some ["delivered", "returned"]
      else if c = "delivered" then some ["returned"]
      else if c = "cancelled" then some []
      else if c = "returned" then some []
      else none := by
  unfold validTransitions
  simp only [List.lookup]
  by_cases h1 : c = "awaiting_payment"
  · subst h1; rfl
  have e1 : (c == "awaiting_payment") = false := by simpa using h1
  by_cases h2 : c = "confirmed"
  · subst h2; rfl
  have e2 : (c == "confirmed") = false := by simpa using h2
  by_cases h3 : c = "shipped"
  · subst h3; rfl
  have e3 : (c == "shipped") = false := by simpa using h3
  by_cases h4 : c = "delivered"
  · subst h4; rfl
  have e4 : (c == "delivered") = false := by simpa using h4
  by_cases h5 : c = "cancelled"
  · subst h5; rfl
  have e5 : (c == "cancelled") = false := by simpa using h5
  by_cases h6 : c = "returned"
  · subst h6; rfl
  have e6 : (c == "returned") = false := by simpa using h6
  simp only [e1, e2, e3, e4, e5, e6, h1, h2, h3, h4, h5, h6, if_false]

theorem isValid_iff_edge (c n : String) :
    isValidStatusTransition c n = true ↔ (c, n) ∈ transitionEdges := by
  unfold isValidStatusTransition transitionEdges
  rw [lookup_validTransitions]
  by_cases h1 : c = "awaiting_payment"
  · subst h1; simp; constructor <;> rintro (rfl | rfl) <;> simp
  by_cases h2 : c = "confirmed"
  · subst h2; simp; constructor <;> rintro (rfl | rfl) <;> simp
  by_cases h3 : c = "shipped"
  · subst h3; simp; constructor <;> rintro (rfl | rfl) <;> simp
  by_cases h4 : c = "delivered"
  · subst h4; simp; constructor <;> rintro rfl <;> rfl
  by_cases h5 : c = "cancelled"
  · subst h5; simp
  by_cases h6 : c = "returned"
  · subst h6; simp
  simp [h1, h2, h3, h4, h5, h6]

theorem edge_cases {c n : String} (h : isValidStatusTransition c n = true) :
    (c = "awaiting_payment" ∧ n = "confirmed") ∨ (c = "awaiting_payment" ∧ n = "cancelled") ∨
    (c = "confirmed" ∧ n = "shipped") ∨ (c = "confirmed" ∧ n = "cancelled") ∨
    (c = "shipped" ∧ n = "delivered") ∨ (c = "shipped" ∧ n = "returned") ∨
    (c = "delivered" ∧ n = "returned") := by
  rw [isValid_iff_edge] at h
  simpa [transitionEdges] using h

theorem isValid_false_of_not_edge {c n : String} (h : (c, n) ∉ transitionEdges) :
    isValidStatusTransition c n = false := by
  cases hv : isValidStatusTransition c n
  · rfl
  · exact absurd ((isValid_iff_edge c n).1 hv) h

theorem rank_lt_of_valid {a b : String} (h : isValidStatusTransition a b = true) :
    statusRank a < statusRank b := by
  rcases edge_cases h with ⟨rfl, rfl⟩ | ⟨rfl, rfl⟩ | ⟨rfl, rfl⟩ | ⟨rfl, rfl⟩ | ⟨rfl, rfl⟩ |
    ⟨rfl, rfl⟩ | ⟨rfl, rfl⟩ <;> decide

theorem rank_le_four (a : String) : statusRank a ≤ 4 := by
  unfold statusRank; split_ifs <;> omega

theorem chain_rank_pairwise (chain : List String)
    (h : List.Chain' (fun s t => isValidStatusTransition s t = true) chain) :
    chain.Pairwise (fun s t => statusRank s < statusRank t) := by
  have h1 : List.Chain' (fun s t => statusRank s < statusRank t) chain :=
    h.imp (fun _ _ hab => rank_lt_of_valid hab)
  haveI : IsTrans String (fun s t => statusRank s < statusRank t) :=
    ⟨fun _ _ _ hab hbc => Nat.lt_trans hab hbc⟩
  exact List.chain'_iff_pairwise.1 h1

/-- C1: `isValidStatusTransition current requested` is true exactly on the
seven edges of the transition graph; it is false on every self-loop, on every
pair leaving `cancelled` or `returned`, and on every current value that is not
one of the six known statuses. -/
theorem isValidStatusTransition_table (current requested : String) :
    (isValidStatusTransition current requested = true ↔
      (current = "awaiting_payment" ∧ requested = "confirmed") ∨
      (current = "awaiting_payment" ∧ requested = "cancelled") ∨
      (current = "confirmed" ∧ requested = "shipped") ∨
      (current = "confirmed" ∧ requested = "cancelled") ∨
      (current = "shipped" ∧ requested = "delivered") ∨
      (current = "shipped" ∧ requested = "returned") ∨
      (current = "delivered" ∧ requested = "returned")) ∧
    isValidStatusTransition current current = false ∧
    isValidStatusTransition "cancelled" requested = false ∧
    isValidStatusTransition "returned" requested = false ∧
    (current ∉ knownStatuses → isValidStatusTransition current requested = false) := by
  refine ⟨?_, ?_, ?_, ?_, ?_⟩
  · rw [isValid_iff_edge]; simp [transitionEdges]
  · cases hv : isValidStatusTransition current current
    · rfl
    · exact absurd (rank_lt_of_valid hv) (Nat.lt_irrefl _)
  · apply isValid_false_of_not_edge; simp [transitionEdges]
  · apply isValid_false_of_not_edge; simp [transitionEdges]
  · intro hk
    apply isValid_false_of_not_edge
    simp only [knownStatuses, List.mem_cons, List.mem_singleton, List.not_mem_nil, or_false,
      not_or] at hk
    simp [transitionEdges, hk.1, hk.2.1, hk.2.2.1, hk.2.2.2.1]

theorem isValidStatusTransition_table_witness :
    "pending" ∉ knownStatuses ∧ isValidStatusTransition "pending" "confirmed" = false :=
  ⟨by decide, (isValidStatusTransition_table "pending" "confirmed").2.2.2.2 (by decide)⟩

/-- C2: the transition relation is acyclic: in every chain of statuses whose
consecutive pairs are allowed, the statuses are pairwise distinct and there
are at most five of them (at most four transitions); no allowed transition
leaves `cancelled` or `returned`. -/
theorem transitions_acyclic (chain : List String)
    (h : List.Chain' (fun s t => isValidStatusTransition s t = true) chain) :
    chain.Nodup ∧ chain.length ≤ 4 + 1 ∧
    ∀ r, isValidStatusTransition "cancelled" r = false ∧
      isValidStatusTransition "returned" r = false := by
  have hp := chain_rank_pairwise chain h
  have hnd : chain.Nodup := hp.imp (fun hlt heq => by rw [heq] at hlt; exact Nat.lt_irrefl _ hlt)
  refine ⟨hnd, ?_, ?_⟩
  · have hr : (chain.map statusRank).Nodup :=
      (List.pairwise_map.2 hp).imp (fun hlt => Nat.ne_of_lt hlt)
    have hsub : (chain.map statusRank).toFinset ⊆ Finset.range 5 := by
      intro x hx
      simp only [List.mem_toFinset, List.mem_map] at hx
      obtain ⟨s, _, rfl⟩ := hx
      exact Finset.mem_range.2 (Nat.lt_succ_of_le (rank_le_four s))
    have hc := Finset.card_le_card hsub
    rw [List.toFinset_card_of_nodup hr, List.length_map, Finset.card_range] at hc
    exact hc
  · intro r
    exact ⟨isValid_false_of_not_edge (by simp [transitionEdges]),
      isValid_false_of_not_edge (by simp [transitionEdges])⟩

theorem transitions_acyclic_witness :
    ["awaiting_payment", "confirmed", "shipped", "delivered", "returned"].Nodup ∧
    ["awaiting_payment", "confirmed", "shipped", "delivered", "returned"].length ≤ 4 + 1 ∧
    ∀ r, isValidStatusTransition "cancelled" r = false ∧
      isValidStatusTransition "returned" r = false :=
  transitions_acyclic ["awaiting_payment", "confirmed", "shipped", "delivered", "returned"]
    (by simp only [List.chain'_cons, List.chain'_singleton, and_true]; decide)

/-! ## Theorems: order creation and status change -/

theorem foldl_total_exact (items : List OrderItem) (acc : ℚ)
    (h : exactTotal acc items = true) :
    items.foldl (fun totalAmount item => totalAmount + item.Price * F64.ofInt item.Quantity)
        (F64.fin acc) =
      F64.fin (acc + specTotal items) := by
  induction items generalizing acc with
  | nil => simp [specTotal]
  | cons x xs ih =>
    unfold exactTotal at h
    cases hp : x.Price with
    | fin p =>
      simp only [hp, Bool.and_eq_true, decide_eq_true_eq] at h
      obtain ⟨⟨⟨hq, hm⟩, ha⟩, hrest⟩ := h
      have hstep : F64.fin acc + F64.fin p * F64.ofInt x.Quantity =
          F64.fin (acc + p * (x.Quantity : ℚ)) := by
        show F64.add (F64.fin acc) (F64.mul (F64.fin p) (F64.ofInt x.Quantity)) = _
        rw [F64.ofInt, hq]
        show F64.add (F64.fin acc) (toFloat64 (p * (x.Quantity : ℚ))) = _
        rw [hm]
        exact ha
      rw [List.foldl_cons, hp, hstep, ih _ hrest]
      simp only [specTotal, List.map_cons, List.sum_cons, hp, F64.toRat]
      congr 1
      ring
    | inf b => simp [hp] at h
    | nan => simp [hp] at h

theorem totalAmountOf_exact (items : List OrderItem) (h : exactTotal 0 items = true) :
    totalAmountOf items = F64.fin (specTotal items) := by
  unfold totalAmountOf
  rw [foldl_total_exact items 0 h, zero_add]

theorem insertItems_ok (env : Env) (orderID : Int) (hi : ∀ i, env.insertItemErr i = none)
    (items : List OrderItem) (i : Nat) :
    (insertItems env orderID i items).2 = none ∧
    (insertItems env orderID i items).1.map
        (fun row => (row.order_id, row.product_id, row.quantity, row.price)) =
      items.map (fun item => (orderID, item.ProductID, item.Quantity, item.Price)) := by
  induction items generalizing i with
  | nil => simp [insertItems]
  | cons x xs ih =>
    simp only [insertItems, hi i]
    exact ⟨(ih (i + 1)).1, by simp [(ih (i + 1)).2]⟩

theorem filter_map_insertItem (p : Effect → Bool) (hp : ∀ row, p (Effect.txInsertItem row) = false)
    (rows : List ItemRow) : (rows.map Effect.txInsertItem).filter p = [] := by
  induction rows with
  | nil => rfl
  | cons r rs ih => simp [List.filter_cons, hp r, ih]

theorem createOrder_committed (env : Env) (db : Store) (req : CreateOrderRequest)
    (hne : req.Items ≠ [])
    (hb : env.beginErr = none) (ho : env.insertOrderErr = none)
    (hi : ∀ i, env.insertItemErr i = none) (hc : env.commitErr = none) :
    (createOrder env db (.ok req)).db =
      { orders := db.orders ++ [newOrderRow env req],
        order_items := db.order_items ++ (insertItems env env.newOrderID 0 req.Items).1 } ∧
    (createOrder env db (.ok req)).trace =
      [Effect.txBegin, Effect.txInsertOrder (newOrderRow env req)] ++
        (insertItems env env.newOrderID 0 req.Items).1.map Effect.txInsertItem ++
        [Effect.txCommit true, Effect.publish "order.created" (orderCreatedMessage env req),
         Effect.txRollback] := by
  have hlen : ¬ req.Items.length = 0 := by
    intro h; exact hne (List.length_eq_zero.1 h)
  have h2 := (insertItems_ok env env.newOrderID hi req.Items 0).1
  simp only [createOrder, hlen, if_false, hb, ho, h2, hc, publishOrderEvent]
  split <;> simp
theorem insertItems_rows (env : Env) (orderID : Int) (items : List OrderItem) (i : Nat)
    (h : (insertItems env orderID i items).2 = none) :
    (insertItems env orderID i items).1.length = items.length ∧
    ∀ row ∈ (insertItems env orderID i items).1, row.order_id = orderID := by
  induction items generalizing i with
  | nil => simp [insertItems]
  | cons x xs ih =>
    unfold insertItems at h ⊢
    cases hx : env.insertItemErr i with
    | some e => simp [hx] at h
    | none =>
      simp only [hx] at h ⊢
      obtain ⟨h1, h2⟩ := ih (i + 1) h
      refine ⟨by simp [h1], ?_⟩
      intro row hrow
      rcases List.mem_cons.1 hrow with rfl | hmem
      · rfl
      · exact h2 row hmem

/-- C3 (counterexample): three units at the price 0.1 (the `float64` nearest
to 0.1).  The stored total is the rounded product 0.30000000000000004, that is
1351079888211149 / 2^52, while the sum over the items of `quantity * price` is
10808639105689191 / 2^55.  And 2^53 + 1 units at the price 1 give the total
2^53, because the quantity is rounded when it is converted. -/
theorem createOrder_total_is_rounded :
    toFloat64 (1 / 10) = F64.fin (3602879701896397 / 36028797018963968) ∧
    (createOrder calmEnv emptyStore (.ok tenthsRequest)).db.orders =
      [(⟨1, 7, F64.fin (1351079888211149 / 4503599627370496), "awaiting_payment", 100,
        100⟩ : OrderRow)] ∧
    specTotal tenthsRequest.Items = 10808639105689191 / 36028797018963968 ∧
    (1351079888211149 / 4503599627370496 : ℚ) ≠ 10808639105689191 / 36028797018963968 ∧
    (createOrder calmEnv emptyStore (.ok bigQuantityRequest)).db.orders =
      [(⟨1, 7, F64.fin 9007199254740992, "awaiting_payment", 100, 100⟩ : OrderRow)] ∧
    specTotal bigQuantityRequest.Items = 9007199254740993 := by
  decide!

/-- C3 (amended): for every non-empty item list, `createOrder` (the database
calls succeeding) appends one order row whose status is `awaiting_payment` and
whose total is the value the loop `totalAmount += price * float64(quantity)`
accumulates in `float64` arithmetic, appends one item row per item, and
publishes exactly one event, `order.created`, carrying that same total, the
status `awaiting_payment` and the item count; the total is the sum over the
items of `quantity * price` whenever no step of the loop rounds. -/
theorem createOrder_total_and_status (env : Env) (db : Store) (req : CreateOrderRequest)
    (hne : req.Items ≠ [])
    (hb : env.beginErr = none) (ho : env.insertOrderErr = none)
    (hi : ∀ i, env.insertItemErr i = none) (hc : env.commitErr = none) :
    (createOrder env db (.ok req)).db.orders =
      db.orders ++ [(⟨env.newOrderID, req.UserID,
        req.Items.foldl
          (fun totalAmount item => totalAmount + item.Price * F64.ofInt item.Quantity)
          (F64.fin 0),
        "awaiting_payment", env.now, env.now⟩ : OrderRow)] ∧
    (∃ rows, (createOrder env db (.ok req)).db.order_items = db.order_items ++ rows ∧
      rows.map (fun row => (row.order_id, row.product_id, row.quantity, row.price)) =
        req.Items.map (fun item => (env.newOrderID, item.ProductID, item.Quantity, item.Price))) ∧
    (∃ message,
      (createOrder env db (.ok req)).trace.filter Effect.isPublish =
        [Effect.publish "order.created" message] ∧
      payloadGet message "total_amount" =
        some (.num (req.Items.foldl
          (fun totalAmount item => totalAmount + item.Price * F64.ofInt item.Quantity)
          (F64.fin 0))) ∧
      payloadGet message "status" = some (.str "awaiting_payment") ∧
      payloadGet message "items" = some (.int req.Items.length)) ∧
    (exactTotal 0 req.Items = true →
      req.Items.foldl
          (fun totalAmount item => totalAmount + item.Price * F64.ofInt item.Quantity)
          (F64.fin 0) =
        F64.fin (specTotal req.Items)) := by
  obtain ⟨hdb, htr⟩ := createOrder_committed env db req hne hb ho hi hc
  refine ⟨?_, ?_, ?_, ?_⟩
  · rw [hdb]; rfl
  · exact ⟨_, by rw [hdb], (insertItems_ok env env.newOrderID hi req.Items 0).2⟩
  · refine ⟨orderCreatedMessage env req, ?_, ?_, ?_, ?_⟩
    · rw [htr]
      simp [List.filter_append, filter_map_insertItem, List.filter_cons, Effect.isPublish]
    · simp [payloadGet, orderCreatedMessage, List.lookup, totalAmountOf]
    · simp [payloadGet, orderCreatedMessage, List.lookup]
    · simp [payloadGet, orderCreatedMessage, List.lookup]
  · intro h
    exact totalAmountOf_exact req.Items h

theorem createOrder_total_and_status_witness :
    (createOrder calmEnv emptyStore (.ok exampleRequest)).db.orders =
      [(⟨1, 7, 25, "awaiting_payment", 100, 100⟩ : OrderRow)] ∧
    exampleRequest.Items.foldl
        (fun totalAmount item => totalAmount + item.Price * F64.ofInt item.Quantity)
        (F64.fin 0) =
      F64.fin (specTotal exampleRequest.Items) := by
  have h := createOrder_total_and_status calmEnv emptyStore exampleRequest (by decide!)
    rfl rfl (fun _ => rfl) rfl
  refine ⟨?_, h.2.2.2 (by decide!)⟩
  rw [h.1]
  decide!

/-- C4: `createOrder` with an empty item list answers 400 with the text
"Order must contain at least one item", leaves both tables unchanged and
performs no effect at all (no insert, no event); and whenever `createOrder`
changes the tables, the request had at least one item and the order row it
added comes with one item row per item. -/
theorem createOrder_empty_items (env : Env) (db : Store) (userID : Int)
    (body : Except String CreateOrderRequest) :
    createOrder env db (.ok ⟨userID, []⟩) =
      ⟨.error 400 "Order must contain at least one item", db, []⟩ ∧
    ((createOrder env db body).db = db ∨
      ∃ req, body = .ok req ∧ req.Items ≠ [] ∧
        (createOrder env db body).db.orders = db.orders ++ [newOrderRow env req] ∧
        ∃ rows, (createOrder env db body).db.order_items = db.order_items ++ rows ∧
          rows ≠ [] ∧ rows.length = req.Items.length ∧
          ∀ row ∈ rows, row.order_id = (newOrderRow env req).id) := by
  refine ⟨by simp [createOrder], ?_⟩
  cases body with
  | error e => left; simp [createOrder]
  | ok req =>
    by_cases hlen : req.Items.length = 0
    · left; simp [createOrder, hlen]
    have hne : req.Items ≠ [] := fun h => hlen (by simp [h])
    cases hb : env.beginErr with
    | some e => left; simp [createOrder, hlen, hb]
    | none =>
      cases ho : env.insertOrderErr with
      | some e => left; simp [createOrder, hlen, hb, ho]
      | none =>
        cases h2 : (insertItems env env.newOrderID 0 req.Items).2 with
        | some e => left; simp [createOrder, hlen, hb, ho, h2]
        | none =>
          cases hc : env.commitErr with
          | some e => left; simp [createOrder, hlen, hb, ho, h2, hc]
          | none =>
            right
            obtain ⟨hl, hall⟩ := insertItems_rows env env.newOrderID req.Items 0 h2
            refine ⟨req, rfl, hne, ?_, (insertItems env env.newOrderID 0 req.Items).1, ?_, ?_, hl, ?_⟩
            · simp only [createOrder, hlen, if_false, hb, ho, h2, hc]; split <;> simp
            · simp only [createOrder, hlen, if_false, hb, ho, h2, hc]; split <;> simp
            · intro hnil; rw [hnil] at hl; exact hlen hl.symm
            · exact hall

/-- C5 (the code at the failing input): `createOrder` accepts an item with
quantity -3: it answers 201 and stores the order with total -12 and the item
row with quantity -3. -/
theorem createOrder_accepts_negative_quantity :
    createOrder calmEnv emptyStore (.ok negativeRequest) =
      ⟨.json 201 ⟨1, 7, -12, "awaiting_payment", 100, 100, [⟨1, 1, 11, -3, 4, 100⟩]⟩,
       ⟨[⟨1, 7, -12, "awaiting_payment", 100, 100⟩], [⟨1, 1, 11, -3, 4, 100⟩]⟩,
       [ .txBegin, .txInsertOrder ⟨1, 7, -12, "awaiting_payment", 100, 100⟩,
         .txInsertItem ⟨1, 1, 11, -3, 4, 100⟩, .txCommit true,
         .publish "order.created"
           [ ("order_id", .int 1), ("user_id", .int 7), ("total_amount", .num (-12)),
             ("status", .str "awaiting_payment"), ("items", .int 1), ("timestamp", .time 100) ],
         .txRollback ]⟩ := by
  decide!

/-- C6: when the stored order has status `s` and the requested status `r` is
not an allowed transition from `s`, `updateOrderStatus` answers 400 with the
text "Cannot transition from s to r", leaves the tables unchanged and performs
no effect at all (no update, no stock restore call, no event). -/
theorem updateOrderStatus_rejects_invalid (env : Env) (db : Store) (orderID : Int)
    (order : Order) (r : String)
    (hget : getOrderByID db env.firstRead orderID = .ok order)
    (hinv : isValidStatusTransition order.Status r = false) :
    updateOrderStatus env db (some orderID) (.ok ⟨r⟩) =
      ⟨.error 400 ("Cannot transition from " ++ order.Status ++ " to " ++ r), db, []⟩ := by
  simp [updateOrderStatus, hget, hinv]

theorem updateOrderStatus_rejects_invalid_witness :
    updateOrderStatus calmEnv deliveredStore (some 1) (.ok ⟨"confirmed"⟩) =
      ⟨.error 400 "Cannot transition from delivered to confirmed", deliveredStore, []⟩ :=
  updateOrderStatus_rejects_invalid calmEnv deliveredStore 1 _ "confirmed" rfl (by decide)

/-! ## Theorems: payment and stock reconciliation -/

/-- The remote calls of one `reduceProductStock`: the product read alone, or
the product read followed by one stock write; the call panics exactly when the
product has no numeric stock. -/
theorem reduceProductStock_shape (script : ReduceScript) (productID quantity : Int) :
    ((reduceProductStock script productID quantity).2 = [Effect.httpGetProduct productID] ∨
      ∃ v, (reduceProductStock script productID quantity).2 =
        [Effect.httpGetProduct productID, Effect.httpPatchStock productID v]) ∧
    ((reduceProductStock script productID quantity).1 = ReduceResult.panic ↔
      script.get = GetOutcome.noNumericStock) := by
  unfold reduceProductStock
  cases script.get with
  | connErr m => simp
  | undecodable m => simp
  | noNumericStock => simp
  | stock n =>
    simp only []
    split
    · cases script.patch with
      | connErr m => simp
      | status code =>
        simp only []
        split <;> simp
    · simp

theorem reduceProductStock_effects (script : ReduceScript) (productID quantity : Int) :
    ∀ e ∈ (reduceProductStock script productID quantity).2,
      e.isStockCall = true ∧ e.isCommitAttempt = false ∧ e.isPublish = false ∧
        e.isCommit = false := by
  intro e he
  rcases (reduceProductStock_shape script productID quantity).1 with h | ⟨v, h⟩
  · rw [h] at he
    simp only [List.mem_singleton] at he
    subst he
    simp [Effect.isStockCall, Effect.isCommitAttempt, Effect.isPublish, Effect.isCommit]
  · rw [h] at he
    simp only [List.mem_cons, List.mem_singleton, List.not_mem_nil, or_false] at he
    rcases he with rfl | rfl <;>
      simp [Effect.isStockCall, Effect.isCommitAttempt, Effect.isPublish, Effect.isCommit]

theorem reduceLoop_effects (env : Env) (items : List OrderItem) (i : Nat) :
    ∀ e ∈ (reduceLoop env i items).1,
      e.isCommitAttempt = false ∧ e.isPublish = false ∧ e.isCommit = false := by
  induction items generalizing i with
  | nil => simp [reduceLoop]
  | cons x xs ih =>
    intro e he
    have hs := reduceProductStock_effects (env.reduce i) x.ProductID x.Quantity
    unfold reduceLoop reduceProductStockTx at he
    split at he
    next calls heq =>
      rw [heq] at hs
      exact (hs e he).2
    next m calls heq =>
      rw [heq] at hs
      simp only [List.mem_append, List.mem_singleton] at he
      rcases he with (he | rfl) | he
      · exact (hs e he).2
      · simp [Effect.isCommitAttempt, Effect.isPublish, Effect.isCommit]
      · exact ih (i + 1) e he
    next calls heq =>
      rw [heq] at hs
      simp only [List.mem_append] at he
      rcases he with he | he
      · exact (hs e he).2
      · exact ih (i + 1) e he

/-- The state gate of `processPayment`: for a stored order whose status is not
`awaiting_payment` the handler answers 400 "Order is not awaiting payment",
changes nothing and performs no effect. -/
theorem processPayment_not_awaiting (env : Env) (db : Store) (orderID : Int) (order : Order)
    (req : PaymentRequest)
    (hget : getOrderByID db env.firstRead orderID = .ok order)
    (hst : order.Status ≠ "awaiting_payment") :
    processPayment env db (some orderID) (.ok req) =
      ⟨.error 400 "Order is not awaiting payment", db, []⟩ := by
  simp [processPayment, hget, hst]

/-- The committing path of `processPayment`: for a stored order awaiting
payment, with the database calls succeeding and no reduce call panicking, the
status update is committed and both events are published after the commit. -/
theorem processPayment_commits (env : Env) (db : Store) (orderID : Int) (order : Order)
    (req : PaymentRequest)
    (hget : getOrderByID db env.firstRead orderID = .ok order)
    (hst : order.Status = "awaiting_payment")
    (hb : env.beginErr = none) (hu : env.updateErr = none) (hc : env.commitErr = none)
    (hp : (reduceLoop env 0 order.Items).2 = false) :
    (processPayment env db (some orderID) (.ok req)).db =
      db.updateStatus "confirmed" orderID env.now ∧
    (processPayment env db (some orderID) (.ok req)).trace =
      [Effect.txBegin, Effect.txUpdateStatus orderID "confirmed"] ++
        (reduceLoop env 0 order.Items).1 ++
        [Effect.txCommit true,
         Effect.publish "order.payment_confirmed" (paymentConfirmedMessage env orderID order req),
         Effect.publish "order.status_changed" (paymentStatusChangedMessage env orderID order),
         Effect.txRollback] := by
  simp only [processPayment, hget, hst, hb, hu, hc, hp, publishOrderEvent]
  simp only [ne_eq, not_true_eq_false, if_false, Bool.false_eq_true]
  split <;> simp

theorem find_updateStatus (rows : List OrderRow) (status : String) (orderID : Int) (now : Nat) :
    (rows.map (fun r =>
        if r.id = orderID then { r with status := status, updated_at := now } else r)).find?
        (fun r => r.id == orderID) =
      (rows.find? (fun r => r.id == orderID)).map
        (fun r => { r with status := status, updated_at := now }) := by
  induction rows with
  | nil => rfl
  | cons x xs ih =>
    by_cases hx : x.id = orderID
    · simp [List.find?_cons, hx]
    · simp only [List.map_cons, hx, if_false, List.find?_cons]
      have : (x.id == orderID) = false := by simpa using hx
      simp only [this]
      exact ih

/-- Reading an order back after its status was updated: same order, new status
and new update time. -/
theorem getOrderByID_updateStatus (db : Store) (fault : ReadFault) (orderID : Int)
    (order : Order) (status : String) (now : Nat)
    (h : getOrderByID db fault orderID = .ok order) :
    getOrderByID (db.updateStatus status orderID now) fault orderID =
      .ok { order with Status := status, UpdatedAt := now } := by
  unfold getOrderByID at h ⊢
  cases hq : fault.orderQuery with
  | some e => simp [hq] at h
  | none =>
    simp only [hq] at h ⊢
    simp only [Store.updateStatus, find_updateStatus]
    cases hf : db.orders.find? (fun r => r.id == orderID) with
    | none => simp [hf] at h
    | some row =>
      simp only [hf, Option.map_some'] at h ⊢
      cases hi : fault.itemsQuery with
      | some e => simp [hi] at h
      | none =>
        simp only [hi, Except.ok.injEq] at h ⊢
        rw [← h]

/-- Paying twice in a row: after a run of `processPayment` that committed, a
second run on the same order answers 400 "Order is not awaiting payment",
changes nothing and performs no effect. -/
theorem processPayment_second_rejected (env env2 : Env) (db : Store) (orderID : Int)
    (order : Order) (req req2 : PaymentRequest)
    (hget : getOrderByID db env.firstRead orderID = .ok order)
    (hst : order.Status = "awaiting_payment")
    (hb : env.beginErr = none) (hu : env.updateErr = none) (hc : env.commitErr = none)
    (hp : (reduceLoop env 0 order.Items).2 = false)
    (hread : env2.firstRead = env.firstRead) :
    processPayment env2 (processPayment env db (some orderID) (.ok req)).db (some orderID)
        (.ok req2) =
      ⟨.error 400 "Order is not awaiting payment",
       (processPayment env db (some orderID) (.ok req)).db, []⟩ := by
  obtain ⟨hdb, _⟩ := processPayment_commits env db orderID order req hget hst hb hu hc hp
  rw [hdb]
  have h2 := getOrderByID_updateStatus db env.firstRead orderID order "confirmed" env.now hget
  rw [← hread] at h2
  exact processPayment_not_awaiting env2 _ orderID _ req2 h2 (by simp)

/-- C7 (the code at the failing input): the order is awaiting payment and every
database call succeeds, but the product read for the second item returns an
object without a numeric stock; `processPayment` panics after the stock of the
first item was written, the transaction is rolled back, and the stored order
is still `awaiting_payment`. -/
theorem processPayment_panic_keeps_awaiting :
    processPayment stocklessSecondEnv awaitingStore (some 1) (.ok ⟨"card"⟩) =
      ⟨.panicked, awaitingStore,
       [ .txBegin, .txUpdateStatus 1 "confirmed", .httpGetProduct 11, .httpPatchStock 11 8,
         .httpGetProduct 12, .txRollback ]⟩ ∧
    (processPayment stocklessSecondEnv awaitingStore (some 1) (.ok ⟨"card"⟩)).db.orders.map
      (fun row => row.status) = ["awaiting_payment"] := by
  decide!

theorem filter_restoreLoop (env : Env) (reason : String) (items : List OrderItem) (i : Nat) :
    (restoreLoop env reason i items).filter Effect.isStockCall =
      items.map (fun item => Effect.httpPostRestore item.ProductID item.Quantity) := by
  induction items generalizing i with
  | nil => simp [restoreLoop]
  | cons x xs ih =>
    unfold restoreLoop
    cases env.restoreErr i <;> simp [List.filter_cons, Effect.isStockCall, ih]

theorem updateOrderStatus_committed (env : Env) (db : Store) (orderID : Int) (order : Order)
    (r : String)
    (hget : getOrderByID db env.firstRead orderID = .ok order)
    (hvalid : isValidStatusTransition order.Status r = true)
    (hupd : env.updateErr = none) :
    (updateOrderStatus env db (some orderID) (.ok ⟨r⟩)).db = db.updateStatus r orderID env.now ∧
    (updateOrderStatus env db (some orderID) (.ok ⟨r⟩)).trace =
      [Effect.dbUpdateStatus orderID r] ++
        (if (restoreDecision order.Status r).1 then
          restoreLoop env (restoreDecision order.Status r).2 0 order.Items else []) ++
        [Effect.publish "order.status_changed" (statusChangedMessage env orderID order r)] := by
  simp only [updateOrderStatus, hget, hvalid, hupd, publishOrderEvent]
  simp only [not_true_eq_false, if_false]
  split <;> simp

/-- C8: for every successful `updateOrderStatus` from the stored status `s` to
`r` (order read, transition allowed, update executed), the remote stock calls
of the run are: one restore call per order item, in item order, with the
product id and quantity of the item, when (`r` is `cancelled` and `s` is
`confirmed`) or (`r` is `returned` and `s` is `delivered`), whatever the
outcome of each call; and no stock call at all in every other transition.
For an order with at least one item, restore calls are issued if and only if
that condition holds. -/
theorem updateOrderStatus_restore_calls (env : Env) (db : Store) (orderID : Int)
    (order : Order) (r : String)
    (hget : getOrderByID db env.firstRead orderID = .ok order)
    (hvalid : isValidStatusTransition order.Status r = true)
    (hupd : env.updateErr = none) :
    (updateOrderStatus env db (some orderID) (.ok ⟨r⟩)).db = db.updateStatus r orderID env.now ∧
    (updateOrderStatus env db (some orderID) (.ok ⟨r⟩)).trace.filter Effect.isStockCall =
      (if (r = "cancelled" ∧ order.Status = "confirmed") ∨
          (r = "returned" ∧ order.Status = "delivered") then
        order.Items.map (fun item => Effect.httpPostRestore item.ProductID item.Quantity)
      else []) ∧
    (order.Items ≠ [] →
      ((updateOrderStatus env db (some orderID) (.ok ⟨r⟩)).trace.filter Effect.isStockCall ≠ [] ↔
        (r = "cancelled" ∧ order.Status = "confirmed") ∨
          (r = "returned" ∧ order.Status = "delivered"))) := by
  obtain ⟨hdb, htr⟩ := updateOrderStatus_committed env db orderID order r hget hvalid hupd
  have key : (updateOrderStatus env db (some orderID) (.ok ⟨r⟩)).trace.filter Effect.isStockCall =
      (if (r = "cancelled" ∧ order.Status = "confirmed") ∨
          (r = "returned" ∧ order.Status = "delivered") then
        order.Items.map (fun item => Effect.httpPostRestore item.ProductID item.Quantity)
      else []) := by
    rw [htr]
    unfold restoreDecision
    by_cases h1 : r = "cancelled" ∧ order.Status = "confirmed"
    · simp [h1, List.filter_append, List.filter_cons, Effect.isStockCall, filter_restoreLoop]
    · by_cases h2 : r = "returned" ∧ order.Status = "delivered"
      · simp [h1, h2, List.filter_append, List.filter_cons, Effect.isStockCall,
          filter_restoreLoop]
      · simp [h1, h2, List.filter_append, List.filter_cons, Effect.isStockCall]
  refine ⟨hdb, key, ?_⟩
  intro hne
  rw [key]
  by_cases hcond : (r = "cancelled" ∧ order.Status = "confirmed") ∨
      (r = "returned" ∧ order.Status = "delivered")
  · simp [hcond, hne]
  · simp [hcond]

theorem updateOrderStatus_restore_calls_witness :
    (updateOrderStatus restoreFailEnv confirmedStore (some 1) (.ok ⟨"cancelled"⟩)).trace.filter
        Effect.isStockCall =
      [Effect.httpPostRestore 11 2, Effect.httpPostRestore 12 1] := by
  have h := (updateOrderStatus_restore_calls restoreFailEnv confirmedStore 1 confirmedOrder
    "cancelled" rfl (by decide) rfl).2.1
  rw [h]
  decide

theorem reduceProductStock_reads (script : ReduceScript) (productID quantity : Int) :
    (reduceProductStock script productID quantity).2.filter Effect.isProductRead =
      [Effect.httpGetProduct productID] := by
  rcases (reduceProductStock_shape script productID quantity).1 with h | ⟨v, h⟩ <;>
    rw [h] <;> simp [List.filter_cons, Effect.isProductRead]

/-- The reduce loop is best effort for every answer of the product service
except an object without a numeric stock: it does not panic and starts one
reduce call per item, in item order, whatever errors the calls return. -/
theorem reduceLoop_completes (env : Env)
    (h : ∀ i, (env.reduce i).get ≠ GetOutcome.noNumericStock)
    (items : List OrderItem) (i : Nat) :
    (reduceLoop env i items).2 = false ∧
    (reduceLoop env i items).1.filter Effect.isProductRead =
      items.map (fun item => Effect.httpGetProduct item.ProductID) := by
  induction items generalizing i with
  | nil => simp [reduceLoop]
  | cons x xs ih =>
    have hr := reduceProductStock_reads (env.reduce i) x.ProductID x.Quantity
    have hnp : (reduceProductStock (env.reduce i) x.ProductID x.Quantity).1 ≠ ReduceResult.panic :=
      fun hpanic =>
        h i ((reduceProductStock_shape (env.reduce i) x.ProductID x.Quantity).2.1 hpanic)
    unfold reduceLoop reduceProductStockTx
    split
    next calls heq => rw [heq] at hnp; exact absurd rfl hnp
    next m calls heq =>
      rw [heq] at hr
      simp only [List.filter_append, List.map_cons]
      simp only [] at hr
      rw [hr]
      exact ⟨(ih (i + 1)).1, by simp [List.filter_cons, Effect.isProductRead, (ih (i + 1)).2]⟩
    next calls heq =>
      rw [heq] at hr
      simp only [List.filter_append, List.map_cons]
      simp only [] at hr
      rw [hr]
      exact ⟨(ih (i + 1)).1, by simp [(ih (i + 1)).2]⟩

/-- C9 (the code at the failing input): the order is awaiting payment and every
database call succeeds, but the product service answers the product read with
an object without a numeric stock; `processPayment` panics at the first item:
the reduce call for the second item (product 12) is never attempted, the
transaction is rolled back so the order stays `awaiting_payment`, and no event
is published. -/
theorem processPayment_panic_on_missing_stock :
    processPayment stocklessEnv awaitingStore (some 1) (.ok ⟨"card"⟩) =
      ⟨.panicked, awaitingStore,
       [.txBegin, .txUpdateStatus 1 "confirmed", .httpGetProduct 11, .txRollback]⟩ ∧
    (processPayment stocklessEnv awaitingStore (some 1) (.ok ⟨"card"⟩)).trace.filter
      Effect.isPublish = [] := by
  decide!

/-! ## Theorems: ordering of commits and external calls -/

theorem not_external_of_commit (e : Effect) (h : e.isCommit = true) : e.isExternal = false := by
  cases e <;> simp_all [Effect.isCommit, Effect.isExternal, Effect.isStockCall, Effect.isPublish]

/-- The scan `commitFirst` says what its name says: every external call of the
trace has a committed state change somewhere before it. -/
theorem commitFirst_iff (trace : List Effect) :
    commitFirst trace = true ↔
      ∀ pre e post, trace = pre ++ e :: post → e.isExternal = true →
        ∃ c, c ∈ pre ∧ c.isCommit = true := by
  induction trace with
  | nil =>
    simp only [commitFirst, true_iff]
    intro pre e post h
    exact absurd h (by simp)
  | cons x xs ih =>
    simp only [commitFirst, Bool.or_eq_true, Bool.and_eq_true, Bool.not_eq_true']
    constructor
    · intro h pre e post hsplit hext
      cases pre with
      | nil =>
        simp only [List.nil_append, List.cons.injEq] at hsplit
        obtain ⟨rfl, _⟩ := hsplit
        rcases h with h | ⟨h, _⟩
        · rw [not_external_of_commit _ h] at hext; exact absurd hext (by simp)
        · rw [h] at hext; exact absurd hext (by simp)
      | cons p ps =>
        simp only [List.cons_append, List.cons.injEq] at hsplit
        obtain ⟨rfl, hxs⟩ := hsplit
        rcases h with h | ⟨_, h⟩
        · exact ⟨_, List.mem_cons_self _ _, h⟩
        · obtain ⟨c, hc, hcc⟩ := (ih.1 h) ps e post hxs hext
          exact ⟨c, List.mem_cons_of_mem _ hc, hcc⟩
    · intro h
      by_cases hx : x.isCommit = true
      · exact Or.inl hx
      · right
        constructor
        · cases hext : x.isExternal with
          | false => rfl
          | true =>
            obtain ⟨c, hc, _⟩ := h [] x xs rfl hext
            exact absurd hc (by simp)
        · apply ih.2
          intro pre e post hsplit hext
          obtain ⟨c, hc, hcc⟩ := h (x :: pre) e post (by simp [hsplit]) hext
          rcases List.mem_cons.1 hc with rfl | hmem
          · exact absurd hcc hx
          · exact ⟨c, hmem, hcc⟩

theorem commitFirst_quiet_append (a b : List Effect)
    (h : ∀ e ∈ a, e.isExternal = false ∧ e.isCommit = false) :
    commitFirst (a ++ b) = commitFirst b := by
  induction a with
  | nil => rfl
  | cons x xs ih =>
    have hx := h x (List.mem_cons_self _ _)
    simp only [List.cons_append, commitFirst, hx.1, hx.2, Bool.false_or, Bool.not_false,
      Bool.true_and]
    exact ih (fun e he => h e (List.mem_cons_of_mem _ he))

theorem publishAfterCommit_quiet_append (a b : List Effect)
    (h : ∀ e ∈ a, e.isPublish = false ∧ e.isCommit = false) :
    publishAfterCommit (a ++ b) = publishAfterCommit b := by
  induction a with
  | nil => rfl
  | cons x xs ih =>
    have hx := h x (List.mem_cons_self _ _)
    simp only [List.cons_append, publishAfterCommit, hx.1, hx.2, Bool.false_or, Bool.not_false,
      Bool.true_and]
    exact ih (fun e he => h e (List.mem_cons_of_mem _ he))

theorem noStockCallAfterCommit_append (a b : List Effect)
    (h : ∀ e ∈ a, e.isCommitAttempt = false) :
    noStockCallAfterCommit (a ++ b) = noStockCallAfterCommit b := by
  induction a with
  | nil => rfl
  | cons x xs ih =>
    have hx := h x (List.mem_cons_self _ _)
    simp only [List.cons_append, noStockCallAfterCommit, hx, Bool.false_eq_true, if_false]
    exact ih (fun e he => h e (List.mem_cons_of_mem _ he))

theorem insertItem_effects_quiet (rows : List ItemRow) :
    ∀ e ∈ rows.map Effect.txInsertItem, e.isExternal = false ∧ e.isCommit = false := by
  intro e he
  obtain ⟨row, _, rfl⟩ := List.mem_map.1 he
  simp [Effect.isExternal, Effect.isStockCall, Effect.isPublish, Effect.isCommit]

theorem createOrder_commitFirst (env : Env) (db : Store)
    (body : Except String CreateOrderRequest) :
    commitFirst (createOrder env db body).trace = true := by
  have hq : ∀ (row : OrderRow) (rows : List ItemRow) (tail : List Effect),
      commitFirst ([Effect.txBegin, Effect.txInsertOrder row] ++
        (rows.map Effect.txInsertItem ++ tail)) = commitFirst tail := by
    intro row rows tail
    simp only [List.cons_append, List.nil_append, commitFirst, Effect.isCommit,
      Effect.isExternal, Effect.isStockCall, Effect.isPublish, Bool.false_or, Bool.or_self,
      Bool.not_false, Bool.true_and]
    exact commitFirst_quiet_append _ _ (insertItem_effects_quiet rows)
  cases body with
  | error e => simp [createOrder, commitFirst]
  | ok req =>
    by_cases hlen : req.Items.length = 0
    · simp [createOrder, hlen, commitFirst]
    cases hb : env.beginErr with
    | some e => simp [createOrder, hlen, hb, commitFirst]
    | none =>
      cases ho : env.insertOrderErr with
      | some e =>
        simp [createOrder, hlen, hb, ho, commitFirst, Effect.isCommit, Effect.isExternal,
          Effect.isStockCall, Effect.isPublish]
      | none =>
        cases h2 : (insertItems env env.newOrderID 0 req.Items).2 with
        | some e =>
          simp only [createOrder, hlen, if_false, hb, ho, h2, List.append_assoc]
          rw [hq]; rfl
        | none =>
          cases hc : env.commitErr with
          | some e =>
            simp only [createOrder, hlen, if_false, hb, ho, h2, hc, List.append_assoc]
            rw [hq]; rfl
          | none =>
            simp only [createOrder, hlen, if_false, hb, ho, h2, hc, List.append_assoc]
            split <;> (simp only []; rw [hq]; rfl)

theorem updateOrderStatus_commitFirst (env : Env) (db : Store) (idArg : Option Int)
    (body : Except String StatusRequest) :
    commitFirst (updateOrderStatus env db idArg body).trace = true := by
  cases idArg with
  | none => simp [updateOrderStatus, commitFirst]
  | some orderID =>
    cases body with
    | error e => simp [updateOrderStatus, commitFirst]
    | ok req =>
      cases hget : getOrderByID db env.firstRead orderID with
      | error err => simp [updateOrderStatus, hget, commitFirst]
      | ok order =>
        by_cases hv : isValidStatusTransition order.Status req.Status = true
        · cases hu : env.updateErr with
          | some e => simp [updateOrderStatus, hget, hv, hu, commitFirst]
          | none =>
            have h := (updateOrderStatus_committed env db orderID order req.Status hget hv hu).2
            rw [h]
            simp [commitFirst, Effect.isCommit]
        · simp [updateOrderStatus, hget, hv, commitFirst]

theorem processPayment_ordering (env : Env) (db : Store) (idArg : Option Int)
    (body : Except String PaymentRequest) :
    publishAfterCommit (processPayment env db idArg body).trace = true ∧
    stockCallsInsideTx (processPayment env db idArg body).trace = true := by
  have hq : ∀ (orderID : Int) (items : List OrderItem) (tail : List Effect),
      publishAfterCommit ([Effect.txBegin, Effect.txUpdateStatus orderID "confirmed"] ++
        ((reduceLoop env 0 items).1 ++ tail)) = publishAfterCommit tail ∧
      stockCallsInsideTx ([Effect.txBegin, Effect.txUpdateStatus orderID "confirmed"] ++
        ((reduceLoop env 0 items).1 ++ tail)) = noStockCallAfterCommit tail := by
    intro orderID items tail
    constructor
    · simp only [List.cons_append, List.nil_append, publishAfterCommit, Effect.isCommit,
        Effect.isPublish, Bool.false_or, Bool.not_false, Bool.true_and]
      exact publishAfterCommit_quiet_append _ _
        (fun e he => ⟨(reduceLoop_effects env items 0 e he).2.1,
          (reduceLoop_effects env items 0 e he).2.2⟩)
    · simp only [List.cons_append, List.nil_append, stockCallsInsideTx, Effect.isStockCall,
        Bool.not_false, Bool.true_and]
      exact noStockCallAfterCommit_append _ _
        (fun e he => (reduceLoop_effects env items 0 e he).1)
  cases idArg with
  | none => simp [processPayment, publishAfterCommit, stockCallsInsideTx]
  | some orderID =>
    cases body with
    | error e => simp [processPayment, publishAfterCommit, stockCallsInsideTx]
    | ok req =>
      cases hget : getOrderByID db env.firstRead orderID with
      | error err => simp [processPayment, hget, publishAfterCommit, stockCallsInsideTx]
      | ok order =>
        by_cases hst : order.Status = "awaiting_payment"
        · cases hb : env.beginErr with
          | some e => simp [processPayment, hget, hst, hb, publishAfterCommit, stockCallsInsideTx]
          | none =>
            cases hu : env.updateErr with
            | some e =>
              simp [processPayment, hget, hst, hb, hu, publishAfterCommit, stockCallsInsideTx,
                Effect.isCommit, Effect.isPublish, Effect.isStockCall]
            | none =>
              cases hp : (reduceLoop env 0 order.Items).2 with
              | true =>
                simp only [processPayment, hget, hst, hb, hu, hp, ne_eq, not_true_eq_false,
                  if_false, if_true, List.append_assoc]
                rw [(hq _ _ _).1, (hq _ _ _).2]
                exact ⟨rfl, rfl⟩
              | false =>
                cases hc : env.commitErr with
                | some e =>
                  simp only [processPayment, hget, hst, hb, hu, hp, hc, ne_eq,
                    not_true_eq_false, if_false, Bool.false_eq_true, List.append_assoc]
                  rw [(hq _ _ _).1, (hq _ _ _).2]
                  exact ⟨rfl, rfl⟩
                | none =>
                  obtain ⟨_, htr⟩ :=
                    processPayment_commits env db orderID order req hget hst hb hu hc hp
                  rw [htr, List.append_assoc, (hq _ _ _).1, (hq _ _ _).2]
                  exact ⟨rfl, rfl⟩
        · rw [processPayment_not_awaiting env db orderID order req hget hst]
          exact ⟨rfl, rfl⟩

/-- C10 (counterexample): a run of `processPayment` in which `tx.Commit()`
fails: the four remote stock calls were made before the commit was attempted,
no state change was committed before them, and the order is left
`awaiting_payment` with the stock already written. -/
theorem processPayment_stock_calls_before_commit :
    processPayment commitFailEnv awaitingStore (some 1) (.ok ⟨"card"⟩) =
      ⟨.error 500 "commit failed", awaitingStore,
       [ .txBegin, .txUpdateStatus 1 "confirmed", .httpGetProduct 11, .httpPatchStock 11 8,
         .httpGetProduct 12, .httpPatchStock 12 9, .txCommit false, .txRollback ]⟩ ∧
    commitFirst (processPayment commitFailEnv awaitingStore (some 1) (.ok ⟨"card"⟩)).trace =
      false := by
  decide!

/-- C10 (amended): in every run of `createOrder` and of `updateOrderStatus`, no
remote stock call and no event publication occurs before the state change is
committed; in every run of `processPayment`, no event publication occurs
before the commit, and the remote stock calls are placed inside the
transaction: none before the status `UPDATE` is executed and none after
`tx.Commit()` is called. -/
theorem commit_and_external_call_order (env : Env) (db : Store)
    (createBody : Except String CreateOrderRequest) (idArg : Option Int)
    (statusBody : Except String StatusRequest) (paymentBody : Except String PaymentRequest) :
    commitFirst (createOrder env db createBody).trace = true ∧
    commitFirst (updateOrderStatus env db idArg statusBody).trace = true ∧
    publishAfterCommit (processPayment env db idArg paymentBody).trace = true ∧
    stockCallsInsideTx (processPayment env db idArg paymentBody).trace = true :=
  ⟨createOrder_commitFirst env db createBody,
   updateOrderStatus_commitFirst env db idArg statusBody,
   (processPayment_ordering env db idArg paymentBody).1,
   (processPayment_ordering env db idArg paymentBody).2⟩

/-! ## Theorems: the written stock value -/

theorem log2Fuel_spec (fuel : Nat) : ∀ n, 1 ≤ n → n ≤ fuel →
    2 ^ log2Fuel fuel n ≤ n ∧ n < 2 ^ (log2Fuel fuel n + 1) := by
  induction fuel with
  | zero => intro n h1 h2; omega
  | succ fuel ih =>
    intro n h1 h2
    unfold log2Fuel
    by_cases hn : n < 2
    · simp only [hn, if_true]
      constructor <;> simp <;> omega
    · simp only [hn, if_false]
      obtain ⟨ih1, ih2⟩ := ih (n / 2) (by omega) (by omega)
      rw [pow_succ] at ih2 ⊢
      constructor
      · omega
      · rw [pow_succ]; omega

theorem ilog2_spec (n : Nat) (h : 1 ≤ n) : 2 ^ ilog2 n ≤ n ∧ n < 2 ^ (ilog2 n + 1) :=
  log2Fuel_spec n n h (Nat.le_refl n)

theorem roundHalfEven_one (n : Nat) : roundHalfEven n 1 = n := by
  simp [roundHalfEven, Nat.mod_one]

/-- Every natural number up to 2^53 is a `float64` value: the conversion does
not round it. -/
theorem toFloat64_natCast_exact (n : Nat) (h : n ≤ 2 ^ 53) :
    toFloat64 (n : ℚ) = F64.fin (n : ℚ) := by
  by_cases h0 : n = 0
  · subst h0; simp [toFloat64]
  have hpos : 1 ≤ n := Nat.one_le_iff_ne_zero.2 h0
  obtain ⟨hl, hu⟩ := ilog2_spec n hpos
  have ha : ilog2 n ≤ 53 := by
    by_contra hc
    have : 2 ^ 54 ≤ 2 ^ ilog2 n := Nat.pow_le_pow_right (by norm_num) (by omega)
    norm_num at h this
    omega
  have hfl : floorLog2 n 1 = (ilog2 n : Int) := by
    have h1 : ilog2 1 = 0 := by decide
    simp [floorLog2, h1, hl]
  have hm : roundMagnitude n 1 = (n : ℚ) := by
    unfold roundMagnitude
    rw [hfl]
    have hmax : max (ilog2 n : Int) (-1022) = (ilog2 n : Int) := by omega
    simp only [hmax]
    by_cases hs : (0 : Int) ≤ (ilog2 n : Int) - 52
    · simp only [hs, if_true]
      have hcases : ilog2 n = 52 ∨ ilog2 n = 53 := by omega
      rcases hcases with h52 | h53
      · simp [h52, roundHalfEven_one]
      · have hn : n = 2 ^ 53 := by
          rw [h53] at hl
          omega
        subst hn
        rw [h53]
        decide!
    · simp only [hs, if_false]
      rw [roundHalfEven_one]
      push_cast
      field_simp
  unfold toFloat64
  have hx : ((n : ℚ) = 0) = False := by simp [h0]
  simp only [hx, if_false, Rat.num_natCast, Int.natAbs_ofNat, Rat.den_natCast, hm]
  have hlt : ¬ (((2 ^ 1024 : Nat) : ℚ) ≤ (n : ℚ)) := by
    rw [Nat.cast_le]
    have h53 : (2 : Nat) ^ 53 < 2 ^ 1024 := Nat.pow_lt_pow_right (by decide) (by decide)
    exact Nat.not_le.2 (Nat.lt_of_le_of_lt h h53)
  have hneg : ¬ ((n : ℚ) < 0) := by simp
  rw [if_neg hlt, if_neg hneg]

theorem float64ToInt_natCast (n : Nat) (h : n ≤ 2 ^ 53) : float64ToInt (n : ℚ) = (n : Int) := by
  unfold float64ToInt
  simp only [Rat.num_natCast, Rat.den_natCast, Nat.cast_one, Int.tdiv_one]
  have h1 : (-2 : Int) ^ 63 ≤ (n : Int) := by norm_num; omega
  have h2 : (n : Int) < 2 ^ 63 := by
    have : ((2 : Nat) ^ 53 : Int) < 2 ^ 63 := by norm_num
    have h3 : (n : Int) ≤ ((2 : Nat) ^ 53 : Int) := by exact_mod_cast h
    omega
  simp only [h2, and_true]
  split
  · rfl
  · rename_i hneg
    exact absurd (by norm_num; omega) hneg

theorem wrapInt64_of_inRange (x : Int) (h1 : -2 ^ 63 ≤ x) (h2 : x < 2 ^ 63) :
    wrapInt64 x = x := by
  unfold wrapInt64
  norm_num at h1 h2 ⊢
  omega

theorem reduceProductStock_calls_of_stock (script : ReduceScript) (productID q : Int)
    (n f : ℚ) (hget : script.get = GetOutcome.stock n) (hf : toFloat64 n = F64.fin f) :
    (reduceProductStock script productID q).2 =
      [Effect.httpGetProduct productID,
       Effect.httpPatchStock productID (newStockOf (float64ToInt f) q)] := by
  unfold reduceProductStock
  simp only [hget, hf]
  cases script.patch with
  | connErr m => rfl
  | status code => simp only []; split <;> rfl

/-- C11 (counterexample): the remote stock 2^55 + 5 is read as the `float64`
2^55 + 8, so with quantity 1 the value written back is 2^55 + 7, greater than
the remote stock and not `c - q`; the remote stock 10.5 is converted to 10, so
with quantity 3 the value written back is 7, not 7.5; and with the remote
stock 2^63 - 1024 and quantity -1024 the subtraction overflows the Go `int`,
the wrapped result is negative and 0 is written, although the quantity is
below the stock and `max(c - q, 0)` is 2^63. -/
theorem reduceProductStock_written_stock_differs :
    (reduceProductStock { get := .stock 36028797018963973, patch := .status 200 } 11 1).2 =
      [Effect.httpGetProduct 11, Effect.httpPatchStock 11 36028797018963975] ∧
    max ((36028797018963973 : Int) - 1) 0 = 36028797018963972 ∧
    (reduceProductStock { get := .stock (21 / 2), patch := .status 200 } 11 3).2 =
      [Effect.httpGetProduct 11, Effect.httpPatchStock 11 7] ∧
    (reduceProductStock { get := .stock 9223372036854774784, patch := .status 200 } 11
        (-1024)).2 =
      [Effect.httpGetProduct 11, Effect.httpPatchStock 11 0] ∧
    max ((9223372036854774784 : Int) - (-1024)) 0 = 9223372036854775808 ∧
    (-1024 : Int) ≤ 9223372036854774784 := by
  decide!

theorem newStockOf_nonneg (currentStock quantity : Int) : 0 ≤ newStockOf currentStock quantity := by
  unfold newStockOf
  simp only []
  split <;> omega

theorem reduceProductStock_written_nonneg (script : ReduceScript) (productID q v : Int)
    (h : Effect.httpPatchStock productID v ∈ (reduceProductStock script productID q).2) :
    0 ≤ v := by
  unfold reduceProductStock at h
  cases hg : script.get with
  | connErr m => simp [hg] at h
  | undecodable m => simp [hg] at h
  | noNumericStock => simp [hg] at h
  | stock n =>
    simp only [hg] at h
    split at h
    · next f _ =>
      have hv : v = newStockOf (float64ToInt f) q := by
        cases hp : script.patch with
        | connErr m => simp [hp] at h; exact h
        | status code =>
          simp only [hp] at h
          split at h <;> simp at h <;> exact h
      rw [hv]
      exact newStockOf_nonneg _ _
    · simp at h

/-- C11 (amended): the stock value that `reduceProductStock` writes back is
never negative.  For every remote stock `c` that is a whole number with
`0 <= c <= 2^53` (so that reading it through `float64` does not change it) and
every quantity `q` (a Go `int`), the value written back is, for `q > 0`, never
greater than `c`; whenever `c - q` does not exceed the largest Go `int`
(always so for `q >= 0`), it is `max(c - q, 0)`, and it equals `c - q` when
`q <= c`. -/
theorem reduceProductStock_written_stock (script : ReduceScript) (productID q : Int) :
    (∀ v, Effect.httpPatchStock productID v ∈ (reduceProductStock script productID q).2 →
      0 ≤ v) ∧
    ∀ c : Nat, script.get = GetOutcome.stock (c : ℚ) → c ≤ 2 ^ 53 →
      -2 ^ 63 ≤ q → q < 2 ^ 63 →
      (reduceProductStock script productID q).2 =
        [Effect.httpGetProduct productID, Effect.httpPatchStock productID (newStockOf c q)] ∧
      (0 < q → newStockOf c q ≤ c) ∧
      ((c : Int) - q < 2 ^ 63 →
        newStockOf c q = max ((c : Int) - q) 0 ∧ (q ≤ c → newStockOf c q = c - q)) := by
  refine ⟨fun v hv => reduceProductStock_written_nonneg script productID q v hv, ?_⟩
  intro c hget hc hq hq2
  have hcalls := reduceProductStock_calls_of_stock script productID q (c : ℚ) (c : ℚ) hget
    (toFloat64_natCast_exact c hc)
  rw [float64ToInt_natCast c hc] at hcalls
  have hc0 : (0 : Int) ≤ (c : Int) := Int.natCast_nonneg c
  have hc2 : (c : Int) < 2 ^ 63 := by
    have : ((2 : Nat) ^ 53 : Int) < 2 ^ 63 := by norm_num
    have h3 : (c : Int) ≤ ((2 : Nat) ^ 53 : Int) := by exact_mod_cast hc
    omega
  refine ⟨hcalls, ?_, ?_⟩
  · intro hpos
    have hw : wrapInt64 ((c : Int) - q) = (c : Int) - q :=
      wrapInt64_of_inRange _ (by norm_num at hc2 hq2 ⊢; omega) (by norm_num at hc2 hq2 ⊢; omega)
    unfold newStockOf
    simp only [hw]
    split <;> omega
  · intro hno
    have hw : wrapInt64 ((c : Int) - q) = (c : Int) - q :=
      wrapInt64_of_inRange _ (by norm_num at hc2 hq2 hno ⊢; omega) hno
    unfold newStockOf
    simp only [hw]
    constructor
    · split
      · rw [max_eq_right (by omega)]
      · rw [max_eq_left (by omega)]
    · intro hle
      split <;> omega

theorem reduceProductStock_written_stock_witness :
    (reduceProductStock { get := .stock 10, patch := .status 200 } 11 3).2 =
      [Effect.httpGetProduct 11, Effect.httpPatchStock 11 7] := by
  have h := ((reduceProductStock_written_stock { get := .stock 10, patch := .status 200 } 11
    3).2 10 (by decide!) (by decide) (by decide) (by decide)).1
  rw [h]
  decide

/-! ## Theorems: events of a payment confirmation -/

theorem filter_reduceLoop_commit_publish (env : Env) (items : List OrderItem) (i : Nat) :
    (reduceLoop env i items).1.filter (fun e => e.isCommitAttempt || e.isPublish) = [] := by
  rw [List.filter_eq_nil_iff]
  intro e he
  have h := reduceLoop_effects env items i e he
  simp [h.1, h.2.1]

theorem reduceLoop_no_commit_ok (env : Env) (items : List OrderItem) (i : Nat) :
    Effect.txCommit true ∉ (reduceLoop env i items).1 := by
  intro hmem
  have h := (reduceLoop_effects env items i _ hmem).1
  simp [Effect.isCommitAttempt] at h

/-- C12: every run of `processPayment` that answers 200, and every run that
commits, reads the order and has as its commit and publication effects exactly
the successful commit, then `order.payment_confirmed` (order id, user id,
total amount, payment method, item count), then `order.status_changed` with
old status `awaiting_payment` and new status `confirmed`; every run without a
successful commit publishes nothing. -/
theorem processPayment_events (env : Env) (db : Store) (idArg : Option Int)
    (body : Except String PaymentRequest) :
    (((∃ o, (processPayment env db idArg body).response = Response.json 200 o) ∨
        Effect.txCommit true ∈ (processPayment env db idArg body).trace) →
      ∃ orderID req order m1 m2,
        idArg = some orderID ∧ body = .ok req ∧
        getOrderByID db env.firstRead orderID = .ok order ∧
        (processPayment env db idArg body).trace.filter
            (fun e => e.isCommitAttempt || e.isPublish) =
          [Effect.txCommit true, Effect.publish "order.payment_confirmed" m1,
           Effect.publish "order.status_changed" m2] ∧
        payloadGet m1 "order_id" = some (.int orderID) ∧
        payloadGet m1 "user_id" = some (.int order.UserID) ∧
        payloadGet m1 "total_amount" = some (.num order.TotalAmount) ∧
        payloadGet m1 "payment_method" = some (.str req.PaymentMethod) ∧
        payloadGet m1 "item_count" = some (.int order.Items.length) ∧
        payloadGet m2 "order_id" = some (.int orderID) ∧
        payloadGet m2 "old_status" = some (.str "awaiting_payment") ∧
        payloadGet m2 "new_status" = some (.str "confirmed")) ∧
    (Effect.txCommit true ∉ (processPayment env db idArg body).trace →
      (processPayment env db idArg body).trace.filter Effect.isPublish = []) := by
  cases idArg with
  | none => simp [processPayment]
  | some orderID =>
    cases body with
    | error e => simp [processPayment]
    | ok req =>
      cases hget : getOrderByID db env.firstRead orderID with
      | error err => simp [processPayment, hget]
      | ok order =>
        by_cases hst : order.Status = "awaiting_payment"
        · cases hb : env.beginErr with
          | some e => simp [processPayment, hget, hst, hb]
          | none =>
            cases hu : env.updateErr with
            | some e => simp [processPayment, hget, hst, hb, hu, Effect.isPublish]
            | none =>
              have hnc := reduceLoop_no_commit_ok env order.Items 0
              have hnp : (reduceLoop env 0 order.Items).1.filter Effect.isPublish = [] := by
                rw [List.filter_eq_nil_iff]
                intro e he
                simp [(reduceLoop_effects env order.Items 0 e he).2.1]
              cases hp : (reduceLoop env 0 order.Items).2 with
              | true =>
                simp [processPayment, hget, hst, hb, hu, hp, hnc, hnp, List.filter_append,
                  List.filter_cons, Effect.isPublish]
              | false =>
                cases hc : env.commitErr with
                | some e =>
                  simp [processPayment, hget, hst, hb, hu, hp, hc, hnc, hnp, List.filter_append,
                    List.filter_cons, Effect.isPublish]
                | none =>
                  obtain ⟨_, htr⟩ :=
                    processPayment_commits env db orderID order req hget hst hb hu hc hp
                  constructor
                  · intro _
                    refine ⟨orderID, req, order, paymentConfirmedMessage env orderID order req,
                      paymentStatusChangedMessage env orderID order, rfl, rfl, hget, ?_, ?_⟩
                    · rw [htr]
                      simp only [List.filter_append, filter_reduceLoop_commit_publish]
                      rfl
                    · simp [payloadGet, paymentConfirmedMessage, paymentStatusChangedMessage,
                        List.lookup]
                  · intro hno
                    exact absurd (by rw [htr]; simp) hno
        · rw [processPayment_not_awaiting env db orderID order req hget hst]
          simp

theorem processPayment_events_witness :
    (∃ m1 m2,
      (processPayment calmEnv awaitingStore (some 1) (.ok ⟨"card"⟩)).trace.filter
          (fun e => e.isCommitAttempt || e.isPublish) =
        [Effect.txCommit true, Effect.publish "order.payment_confirmed" m1,
         Effect.publish "order.status_changed" m2] ∧
      payloadGet m1 "payment_method" = some (.str "card")) ∧
    (processPayment commitFailEnv awaitingStore (some 1) (.ok ⟨"card"⟩)).trace.filter
      Effect.isPublish = [] := by
  constructor
  · obtain ⟨orderID, req, order, m1, m2, _, hreq, _, hf, _, _, _, hpm, _⟩ :=
      (processPayment_events calmEnv awaitingStore (some 1) (.ok ⟨"card"⟩)).1
        (Or.inr (by decide!))
    cases hreq
    exact ⟨m1, m2, hf, hpm⟩
  · exact (processPayment_events commitFailEnv awaitingStore (some 1) (.ok ⟨"card"⟩)).2
      (by decide!)
/-! ## Theorems: a failing read of the current order -/

/-- C13 (the code at the failing input): the order exists, and the order query
of the first read fails with a connection error; `updateOrderStatus` and
`processPayment` both answer 404 "Order not found", while `getOrder` answers
500 with the text of the error. -/
theorem read_fault_answered_not_found :
    updateOrderStatus readFailEnv awaitingStore (some 1) (.ok ⟨"confirmed"⟩) =
      ⟨.error 404 "Order not found", awaitingStore, []⟩ ∧
    processPayment readFailEnv awaitingStore (some 1) (.ok ⟨"card"⟩) =
      ⟨.error 404 "Order not found", awaitingStore, []⟩ ∧
    getOrder readFailEnv awaitingStore (some 1) =
      ⟨.error 500 "connection refused", awaitingStore, []⟩ ∧
    storedStatus awaitingStore 1 = some "awaiting_payment" := by
  decide!
/-! ## Theorems: the latency buffer -/

theorem recordRequest_latencies (m : Metrics) (statusCode latencyMs : Int) :
    (m.RecordRequest statusCode latencyMs).RequestLatencies =
      if (m.RequestLatencies ++ [latencyMs]).length > 1000 then
        (m.RequestLatencies ++ [latencyMs]).drop 1
      else m.RequestLatencies ++ [latencyMs] := by
  unfold Metrics.RecordRequest
  by_cases hs : statusCode ≥ 400
  · simp only [hs, if_true]; split_ifs <;> rfl
  · simp only [hs, if_false]; split_ifs <;> rfl

theorem recordAll_snoc (calls : List (Int × Int)) (call : Int × Int) :
    recordAll (calls ++ [call]) = (recordAll calls).RecordRequest call.1 call.2 := by
  simp [recordAll, List.foldl_append]

theorem recordAll_latencies (calls : List (Int × Int)) :
    (recordAll calls).RequestLatencies =
      (calls.map (fun call => call.2)).drop (calls.length - 1000) := by
  induction calls using List.reverseRecOn with
  | nil => rfl
  | append_singleton calls call ih =>
    rw [recordAll_snoc, recordRequest_latencies, ih]
    have hb : ((calls.map (fun call => call.2)).drop (calls.length - 1000) ++ [call.2]).length =
        calls.length - (calls.length - 1000) + 1 := by simp
    rw [hb, List.map_append, List.length_append]
    simp only [List.map_cons, List.map_nil, List.length_singleton]
    by_cases hlen : calls.length < 1000
    · have h0 : calls.length - 1000 = 0 := by omega
      have h1 : calls.length + 1 - 1000 = 0 := by omega
      rw [if_neg (by omega), h0, h1, List.drop_zero, List.drop_zero]
    · rw [if_pos (by omega)]
      have hle : calls.length - 1000 ≤ (calls.map (fun call => call.2)).length := by
        rw [List.length_map]; omega
      rw [← List.drop_append_of_le_length hle, List.drop_drop]
      exact congrArg (fun n => List.drop n (calls.map (fun call => call.2) ++ [call.2]))
        (by omega)

/-- C14: in every state reached from the initial metrics by `RecordRequest`
calls, the latency buffer holds the most recent samples in arrival order and
never more than 1000 of them; `GetP95Latency` returns 0 when the buffer holds
fewer than 20 samples, and otherwise the index `len * 95 / 100` is strictly
less than `len` and the method returns the buffer element at that index (it
never panics). -/
theorem getP95Latency_reachable (calls : List (Int × Int)) :
    (recordAll calls).RequestLatencies =
      (calls.map (fun call => call.2)).drop (calls.length - 1000) ∧
    (recordAll calls).RequestLatencies.length ≤ 1000 ∧
    ((recordAll calls).RequestLatencies.length < 20 →
      (recordAll calls).GetP95Latency = some 0) ∧
    (20 ≤ (recordAll calls).RequestLatencies.length →
      ∃ h : (recordAll calls).RequestLatencies.length * 95 / 100 <
          (recordAll calls).RequestLatencies.length,
        (recordAll calls).GetP95Latency =
          some ((recordAll calls).RequestLatencies.get
            ⟨(recordAll calls).RequestLatencies.length * 95 / 100, h⟩)) := by
  refine ⟨recordAll_latencies calls, ?_, ?_, ?_⟩
  · rw [recordAll_latencies]
    simp only [List.length_drop, List.length_map]
    omega
  · intro h
    simp [Metrics.GetP95Latency, h]
  · intro h
    have hidx : (recordAll calls).RequestLatencies.length * 95 / 100 <
        (recordAll calls).RequestLatencies.length := by omega
    refine ⟨hidx, ?_⟩
    have hn : ¬ (recordAll calls).RequestLatencies.length < 20 := by omega
    simp only [Metrics.GetP95Latency, hn, if_false]
    rw [List.getElem?_eq_getElem hidx]
    rfl

set_option maxRecDepth 8000 in
theorem getP95Latency_reachable_witness :
    (recordAll [(200, 5)]).GetP95Latency = some 0 ∧
    (recordAll sampleCalls).GetP95Latency = some 24 ∧
    ∃ h : (recordAll sampleCalls).RequestLatencies.length * 95 / 100 <
        (recordAll sampleCalls).RequestLatencies.length,
      (recordAll sampleCalls).GetP95Latency =
        some ((recordAll sampleCalls).RequestLatencies.get
          ⟨(recordAll sampleCalls).RequestLatencies.length * 95 / 100, h⟩) :=
  ⟨(getP95Latency_reachable [(200, 5)]).2.2.1 (by decide), by decide,
   (getP95Latency_reachable sampleCalls).2.2.2
     (by rw [recordAll_latencies, List.length_drop, List.length_map]; decide)⟩

/-! ## Theorems: sequences of operations on one order -/

theorem storedStatus_of_getOrderByID {db : Store} {fault : ReadFault} {orderID : Int}
    {order : Order} (h : getOrderByID db fault orderID = .ok order) :
    storedStatus db orderID = some order.Status := by
  unfold getOrderByID at h
  unfold storedStatus
  cases hq : fault.orderQuery with
  | some e => simp [hq] at h
  | none =>
    simp only [hq] at h
    cases hf : db.orders.find? (fun r => r.id == orderID) with
    | none => simp [hf] at h
    | some row =>
      simp only [hf] at h
      cases hi : fault.itemsQuery with
      | some e => simp [hi] at h
      | none =>
        simp only [hi, Except.ok.injEq] at h
        rw [← h]
        rfl

theorem storedStatus_updateStatus (db : Store) (orderID : Int) (status old : String) (now : Nat)
    (h : storedStatus db orderID = some old) :
    storedStatus (db.updateStatus status orderID now) orderID = some status := by
  unfold storedStatus at h ⊢
  simp only [Store.updateStatus, find_updateStatus]
  cases hf : db.orders.find? (fun r => r.id == orderID) with
  | none => simp [hf] at h
  | some row => simp

theorem reduceProductStock_no_restore (script : ReduceScript) (productID quantity : Int) :
    ∀ e ∈ (reduceProductStock script productID quantity).2, e.isRestore = false := by
  intro e he
  rcases (reduceProductStock_shape script productID quantity).1 with h | ⟨v, h⟩
  · rw [h] at he
    simp only [List.mem_singleton] at he
    subst he
    rfl
  · rw [h] at he
    simp only [List.mem_cons, List.mem_singleton, List.not_mem_nil, or_false] at he
    rcases he with rfl | rfl <;> rfl

theorem reduceLoop_no_restore (env : Env) (items : List OrderItem) (i : Nat) :
    ∀ e ∈ (reduceLoop env i items).1, e.isRestore = false := by
  induction items generalizing i with
  | nil => simp [reduceLoop]
  | cons x xs ih =>
    intro e he
    have hs := reduceProductStock_no_restore (env.reduce i) x.ProductID x.Quantity
    unfold reduceLoop reduceProductStockTx at he
    split at he
    next calls heq =>
      rw [heq] at hs
      exact hs e he
    next m calls heq =>
      rw [heq] at hs
      simp only [List.mem_append, List.mem_singleton] at he
      rcases he with (he | rfl) | he
      · exact hs e he
      · rfl
      · exact ih (i + 1) e he
    next calls heq =>
      rw [heq] at hs
      simp only [List.mem_append] at he
      rcases he with he | he
      · exact hs e he
      · exact ih (i + 1) e he

theorem restoreLoop_no_read (env : Env) (reason : String) (items : List OrderItem) (i : Nat) :
    ∀ e ∈ restoreLoop env reason i items, e.isProductRead = false := by
  induction items generalizing i with
  | nil => simp [restoreLoop]
  | cons x xs ih =>
    intro e he
    unfold restoreLoop at he
    cases hr : env.restoreErr i with
    | some m =>
      simp only [hr, List.mem_cons] at he
      rcases he with rfl | rfl | he
      · rfl
      · rfl
      · exact ih (i + 1) e he
    | none =>
      simp only [hr, List.mem_cons] at he
      rcases he with rfl | he
      · rfl
      · exact ih (i + 1) e he

/-- The outcomes of one `updateOrderStatus` run: either nothing is changed and
nothing is done, or the order was read, the transition is allowed and the
update is committed, followed by the restore calls (if any) and the event. -/
theorem updateOrderStatus_outcomes (env : Env) (db : Store) (orderID : Int) (r : String) :
    ((updateOrderStatus env db (some orderID) (.ok ⟨r⟩)).db = db ∧
      (updateOrderStatus env db (some orderID) (.ok ⟨r⟩)).trace = []) ∨
    ∃ order, getOrderByID db env.firstRead orderID = .ok order ∧
      isValidStatusTransition order.Status r = true ∧
      (updateOrderStatus env db (some orderID) (.ok ⟨r⟩)).db =
        db.updateStatus r orderID env.now ∧
      (updateOrderStatus env db (some orderID) (.ok ⟨r⟩)).trace =
        [Effect.dbUpdateStatus orderID r] ++
          (if (restoreDecision order.Status r).1 then
            restoreLoop env (restoreDecision order.Status r).2 0 order.Items else []) ++
          [Effect.publish "order.status_changed" (statusChangedMessage env orderID order r)] := by
  cases hget : getOrderByID db env.firstRead orderID with
  | error err => left; simp [updateOrderStatus, hget]
  | ok order =>
    by_cases hv : isValidStatusTransition order.Status r = true
    · cases hu : env.updateErr with
      | some e => left; simp [updateOrderStatus, hget, hv, hu]
      | none =>
        right
        obtain ⟨h1, h2⟩ := updateOrderStatus_committed env db orderID order r hget hv hu
        exact ⟨order, rfl, hv, h1, h2⟩
    · left; simp [updateOrderStatus, hget, hv]

/-- The outcomes of one `processPayment` run: it makes no restore call; it
makes reduce calls only for a stored order awaiting payment; it either leaves
the tables unchanged or commits the status `confirmed`, and it commits
whenever it makes reduce calls, the commit succeeds and the loop does not
panic. -/
theorem processPayment_outcomes (env : Env) (db : Store) (orderID : Int) (req : PaymentRequest) :
    (processPayment env db (some orderID) (.ok req)).trace.any Effect.isRestore = false ∧
    ((processPayment env db (some orderID) (.ok req)).db = db ∨
      (storedStatus db orderID = some "awaiting_payment" ∧
        (processPayment env db (some orderID) (.ok req)).db =
          db.updateStatus "confirmed" orderID env.now)) ∧
    ((processPayment env db (some orderID) (.ok req)).trace.any Effect.isProductRead = true →
      storedStatus db orderID = some "awaiting_payment" ∧
      (env.commitErr = none → (∀ i, (env.reduce i).get ≠ GetOutcome.noNumericStock) →
        (processPayment env db (some orderID) (.ok req)).db =
          db.updateStatus "confirmed" orderID env.now)) := by
  cases hget : getOrderByID db env.firstRead orderID with
  | error err => simp [processPayment, hget]
  | ok order =>
    by_cases hst : order.Status = "awaiting_payment"
    · have hs : storedStatus db orderID = some "awaiting_payment" := by
        rw [storedStatus_of_getOrderByID hget, hst]
      have hnr : (reduceLoop env 0 order.Items).1.any Effect.isRestore = false := by
        rw [List.any_eq_false]
        intro e he
        simp [reduceLoop_no_restore env order.Items 0 e he]
      cases hb : env.beginErr with
      | some e => simp [processPayment, hget, hst, hb]
      | none =>
        cases hu : env.updateErr with
        | some e =>
          simp [processPayment, hget, hst, hb, hu, Effect.isRestore, Effect.isProductRead]
        | none =>
          cases hp : (reduceLoop env 0 order.Items).2 with
          | true =>
            refine ⟨?_, ?_, ?_⟩
            · simp [processPayment, hget, hst, hb, hu, hp, hnr, Effect.isRestore]
            · left; simp [processPayment, hget, hst, hb, hu, hp]
            · intro _
              refine ⟨hs, fun _ hnp => ?_⟩
              rw [(reduceLoop_completes env hnp order.Items 0).1] at hp
              exact absurd hp (by simp)
          | false =>
            cases hc : env.commitErr with
            | some e =>
              refine ⟨?_, ?_, ?_⟩
              · simp [processPayment, hget, hst, hb, hu, hp, hc, hnr, Effect.isRestore]
              · left; simp [processPayment, hget, hst, hb, hu, hp, hc]
              · intro _
                exact ⟨hs, fun h => absurd h (by simp)⟩
            | none =>
              obtain ⟨hdb, htr⟩ :=
                processPayment_commits env db orderID order req hget hst hb hu hc hp
              refine ⟨?_, Or.inr ⟨hs, hdb⟩, fun _ => ⟨hs, fun _ _ => hdb⟩⟩
              rw [htr]
              simp [hnr, Effect.isRestore]
    · rw [processPayment_not_awaiting env db orderID order req hget hst]
      simp
theorem no_edge_into_awaiting {s t : String} (h : isValidStatusTransition s t = true) :
    t ≠ "awaiting_payment" := by
  rcases edge_cases h with ⟨_, rfl⟩ | ⟨_, rfl⟩ | ⟨_, rfl⟩ | ⟨_, rfl⟩ | ⟨_, rfl⟩ | ⟨_, rfl⟩ |
    ⟨_, rfl⟩ <;> decide

theorem no_edge_from_terminal {s t : String} (h : isValidStatusTransition s t = true) :
    s ≠ "cancelled" ∧ s ≠ "returned" := by
  rcases edge_cases h with ⟨rfl, _⟩ | ⟨rfl, _⟩ | ⟨rfl, _⟩ | ⟨rfl, _⟩ | ⟨rfl, _⟩ | ⟨rfl, _⟩ |
    ⟨rfl, _⟩ <;> decide

/-- One operation moves the stored status along an edge of the transition
graph or leaves it as it is. -/
theorem runOp_status (env : Env) (db : Store) (orderID : Int) (op : Op) :
    storedStatus (runOp env db orderID op).db orderID = storedStatus db orderID ∨
    ∃ s t, storedStatus db orderID = some s ∧
      storedStatus (runOp env db orderID op).db orderID = some t ∧
      isValidStatusTransition s t = true := by
  cases op with
  | pay req =>
    simp only [runOp]
    rcases (processPayment_outcomes env db orderID req).2.1 with h | ⟨hs, h⟩
    · left; rw [h]
    · right
      exact ⟨"awaiting_payment", "confirmed", hs,
        by rw [h]; exact storedStatus_updateStatus db orderID _ _ _ hs, by decide⟩
  | setStatus r =>
    simp only [runOp]
    rcases updateOrderStatus_outcomes env db orderID r with ⟨h, _⟩ | ⟨order, hget, hv, h, _⟩
    · left; rw [h]
    · right
      have hs := storedStatus_of_getOrderByID hget
      exact ⟨order.Status, r, hs,
        by rw [h]; exact storedStatus_updateStatus db orderID _ _ _ hs, hv⟩

/-- An operation that makes reduce calls found the order awaiting payment, and
leaves it confirmed when the commit succeeds and no reduce call panics. -/
theorem runOp_reads (env : Env) (db : Store) (orderID : Int) (op : Op)
    (h : (runOp env db orderID op).trace.any Effect.isProductRead = true) :
    storedStatus db orderID = some "awaiting_payment" ∧
    (env.commitErr = none → (∀ i, (env.reduce i).get ≠ GetOutcome.noNumericStock) →
      storedStatus (runOp env db orderID op).db orderID = some "confirmed") := by
  cases op with
  | pay req =>
    simp only [runOp] at h ⊢
    obtain ⟨hs, hc⟩ := (processPayment_outcomes env db orderID req).2.2 h
    exact ⟨hs, fun h1 h2 => by
      rw [hc h1 h2]; exact storedStatus_updateStatus db orderID _ _ _ hs⟩
  | setStatus r =>
    simp only [runOp] at h
    exfalso
    rcases updateOrderStatus_outcomes env db orderID r with ⟨_, ht⟩ | ⟨order, _, _, _, ht⟩
    · rw [ht] at h; simp at h
    · rw [ht] at h
      have hno : (if (restoreDecision order.Status r).1 then
          restoreLoop env (restoreDecision order.Status r).2 0 order.Items else []).any
          Effect.isProductRead = false := by
        rw [List.any_eq_false]
        intro e he
        split at he
        · simp [restoreLoop_no_read env _ order.Items 0 e he]
        · simp at he
      simp [hno, Effect.isProductRead] at h

/-- An operation that makes restore calls found the order confirmed or
delivered and leaves it cancelled or returned. -/
theorem runOp_restores (env : Env) (db : Store) (orderID : Int) (op : Op)
    (h : (runOp env db orderID op).trace.any Effect.isRestore = true) :
    (storedStatus db orderID = some "confirmed" ∨ storedStatus db orderID = some "delivered") ∧
    (storedStatus (runOp env db orderID op).db orderID = some "cancelled" ∨
      storedStatus (runOp env db orderID op).db orderID = some "returned") := by
  cases op with
  | pay req =>
    simp only [runOp] at h
    rw [(processPayment_outcomes env db orderID req).1] at h
    exact absurd h (by simp)
  | setStatus r =>
    simp only [runOp] at h ⊢
    rcases updateOrderStatus_outcomes env db orderID r with ⟨_, ht⟩ | ⟨order, hget, _, hdb, ht⟩
    · rw [ht] at h; simp at h
    · have hs := storedStatus_of_getOrderByID hget
      have hafter : storedStatus (updateOrderStatus env db (some orderID) (.ok ⟨r⟩)).db orderID =
          some r := by
        rw [hdb]; exact storedStatus_updateStatus db orderID _ _ _ hs
      rw [ht] at h
      rw [hafter, hs]
      unfold restoreDecision at h
      by_cases h1 : r = "cancelled" ∧ order.Status = "confirmed"
      · exact ⟨Or.inl (by rw [h1.2]), Or.inl (by rw [h1.1])⟩
      · by_cases h2 : r = "returned" ∧ order.Status = "delivered"
        · exact ⟨Or.inr (by rw [h2.2]), Or.inr (by rw [h2.1])⟩
        · simp [h1, h2, Effect.isRestore] at h

theorem reduceRounds_zero (orderID : Int) (steps : List (Env × Op)) (db : Store)
    (h : storedStatus db orderID ≠ some "awaiting_payment") :
    reduceRounds (runOps orderID db steps) = 0 := by
  induction steps generalizing db with
  | nil => rfl
  | cons step rest ih =>
    have hno : (runOp step.1 db orderID step.2).trace.any Effect.isProductRead = false := by
      cases hr : (runOp step.1 db orderID step.2).trace.any Effect.isProductRead with
      | false => rfl
      | true => exact absurd (runOp_reads step.1 db orderID step.2 hr).1 h
    have hafter : storedStatus (runOp step.1 db orderID step.2).db orderID ≠
        some "awaiting_payment" := by
      rcases runOp_status step.1 db orderID step.2 with heq | ⟨s, t, _, ht, hv⟩
      · rw [heq]; exact h
      · rw [ht]
        intro hc
        exact no_edge_into_awaiting hv (Option.some.inj hc)
    have := ih _ hafter
    simp only [reduceRounds] at this ⊢
    simp only [runOps, List.filter_cons, hno, Bool.false_eq_true, if_false]
    exact this

theorem restoreRounds_zero (orderID : Int) (steps : List (Env × Op)) (db : Store)
    (h : storedStatus db orderID = some "cancelled" ∨ storedStatus db orderID = some "returned") :
    restoreRounds (runOps orderID db steps) = 0 := by
  induction steps generalizing db with
  | nil => rfl
  | cons step rest ih =>
    have hno : (runOp step.1 db orderID step.2).trace.any Effect.isRestore = false := by
      cases hr : (runOp step.1 db orderID step.2).trace.any Effect.isRestore with
      | false => rfl
      | true =>
        exfalso
        rcases (runOp_restores step.1 db orderID step.2 hr).1 with h1 | h1 <;>
          rcases h with h2 | h2 <;> rw [h1] at h2 <;> exact absurd h2 (by decide)
    have hafter : storedStatus (runOp step.1 db orderID step.2).db orderID = some "cancelled" ∨
        storedStatus (runOp step.1 db orderID step.2).db orderID = some "returned" := by
      rcases runOp_status step.1 db orderID step.2 with heq | ⟨s, t, hs, _, hv⟩
      · rw [heq]; exact h
      · exfalso
        have hne := no_edge_from_terminal hv
        rcases h with h2 | h2 <;> rw [hs] at h2
        · exact hne.1 (Option.some.inj h2)
        · exact hne.2 (Option.some.inj h2)
    have := ih _ hafter
    simp only [restoreRounds] at this ⊢
    simp only [runOps, List.filter_cons, hno, Bool.false_eq_true, if_false]
    exact this

/-- The restore round is performed at most once in every sequence of
operations on one order, whatever the environment does. -/
theorem restoreRounds_le_one (orderID : Int) (steps : List (Env × Op)) (db : Store) :
    restoreRounds (runOps orderID db steps) ≤ 1 := by
  induction steps generalizing db with
  | nil => simp [restoreRounds, runOps]
  | cons step rest ih =>
    cases hr : (runOp step.1 db orderID step.2).trace.any Effect.isRestore with
    | false =>
      have := ih (runOp step.1 db orderID step.2).db
      simp only [restoreRounds] at this ⊢
      simp only [runOps, List.filter_cons, hr, Bool.false_eq_true, if_false]
      exact this
    | true =>
      have := restoreRounds_zero orderID rest _ (runOp_restores step.1 db orderID step.2 hr).2
      simp only [restoreRounds] at this ⊢
      simp only [runOps, List.filter_cons, hr, if_true, List.length_cons, this]
      omega

/-- The reduce round is performed at most once in every sequence of operations
on one order in which every commit succeeds and no reduce call panics. -/
theorem reduceRounds_le_one (orderID : Int) (steps : List (Env × Op)) (db : Store)
    (hok : ∀ step ∈ steps, step.1.commitErr = none ∧
      ∀ i, (step.1.reduce i).get ≠ GetOutcome.noNumericStock) :
    reduceRounds (runOps orderID db steps) ≤ 1 := by
  induction steps generalizing db with
  | nil => simp [reduceRounds, runOps]
  | cons step rest ih =>
    have hrest : ∀ s ∈ rest, s.1.commitErr = none ∧
        ∀ i, (s.1.reduce i).get ≠ GetOutcome.noNumericStock :=
      fun s hs => hok s (List.mem_cons_of_mem _ hs)
    cases hr : (runOp step.1 db orderID step.2).trace.any Effect.isProductRead with
    | false =>
      have := ih (runOp step.1 db orderID step.2).db hrest
      simp only [reduceRounds] at this ⊢
      simp only [runOps, List.filter_cons, hr, Bool.false_eq_true, if_false]
      exact this
    | true =>
      obtain ⟨hc, hnp⟩ := hok step (List.mem_cons_self _ _)
      have hconf := (runOp_reads step.1 db orderID step.2 hr).2 hc hnp
      have := reduceRounds_zero orderID rest (runOp step.1 db orderID step.2).db
        (by rw [hconf]; decide)
      simp only [reduceRounds] at this ⊢
      simp only [runOps, List.filter_cons, hr, if_true, List.length_cons, this]
      omega

/-- C15 (the code at the failing input): two payment attempts on one order
awaiting payment, no database call failing in either.  In the first attempt
the product read for the second item returns an object without a numeric
stock, so the handler panics after the stock of the first item was written
and the order stays `awaiting_payment`; the second attempt reduces the first
item again.  The reduce round is performed twice. -/
theorem reduce_round_repeated_after_panic :
    persistenceOk stocklessSecondEnv = true ∧ persistenceOk retryEnv = true ∧
    (runOps 1 awaitingStore
        [(stocklessSecondEnv, Op.pay ⟨"card"⟩), (retryEnv, Op.pay ⟨"card"⟩)]).map
        (fun r => r.trace.filter Effect.isStockCall) =
      [ [Effect.httpGetProduct 11, Effect.httpPatchStock 11 8, Effect.httpGetProduct 12],
        [Effect.httpGetProduct 11, Effect.httpPatchStock 11 6, Effect.httpGetProduct 12,
         Effect.httpPatchStock 12 9] ] ∧
    reduceRounds (runOps 1 awaitingStore
        [(stocklessSecondEnv, Op.pay ⟨"card"⟩), (retryEnv, Op.pay ⟨"card"⟩)]) = 2 := by
  decide!
/-- C16: a sequence of successful operations in which stock is restored
although it was never reduced.  The example order is created (201); the
status change `awaiting_payment -> confirmed` is accepted by
`updateOrderStatus`, makes no stock call and publishes the text "Order status
updated"; the following status change `confirmed -> cancelled` makes one
restore call per item.  No reduce call occurs anywhere in the sequence. -/
theorem restore_without_reduce :
    (createOrder calmEnv emptyStore (.ok exampleRequest)).response =
      Response.json 201 ⟨1, 7, 25, "awaiting_payment", 100, 100,
        [⟨1, 1, 11, 2, 10, 100⟩, ⟨2, 1, 12, 1, 5, 100⟩]⟩ ∧
    (createOrder calmEnv emptyStore (.ok exampleRequest)).trace.filter Effect.isStockCall = [] ∧
    (runOps 1 freshStore
        [(calmEnv, Op.setStatus "confirmed"), (calmEnv, Op.setStatus "cancelled")]).map
        (fun r => (r.response, r.trace)) =
      [ (Response.json 200 ⟨1, 7, 25, "confirmed", 100, 100,
           [⟨1, 1, 11, 2, 10, 100⟩, ⟨2, 1, 12, 1, 5, 100⟩]⟩,
         [ Effect.dbUpdateStatus 1 "confirmed",
           Effect.publish "order.status_changed"
             [ ("order_id", .int 1), ("user_id", .int 7),
               ("old_status", .str "awaiting_payment"), ("new_status", .str "confirmed"),
               ("total_amount", .num 25), ("item_count", .int 2), ("timestamp", .time 100),
               ("message", .str "Order status updated") ] ]),
        (Response.json 200 ⟨1, 7, 25, "cancelled", 100, 100,
           [⟨1, 1, 11, 2, 10, 100⟩, ⟨2, 1, 12, 1, 5, 100⟩]⟩,
         [ Effect.dbUpdateStatus 1 "cancelled",
           Effect.httpPostRestore 11 2, Effect.httpPostRestore 12 1,
           Effect.publish "order.status_changed"
             [ ("order_id", .int 1), ("user_id", .int 7),
               ("old_status", .str "confirmed"), ("new_status", .str "cancelled"),
               ("total_amount", .num 25), ("item_count", .int 2), ("timestamp", .time 100),
               ("message", .str "Order has been cancelled and stock has been restored") ] ]) ] ∧
    reduceRounds (runOps 1 freshStore
        [(calmEnv, Op.setStatus "confirmed"), (calmEnv, Op.setStatus "cancelled")]) = 0 ∧
    restoreRounds (runOps 1 freshStore
        [(calmEnv, Op.setStatus "confirmed"), (calmEnv, Op.setStatus "cancelled")]) = 1 := by
  decide!

end OrderService
